import Mathlib

/-!
# go-toolkit: the structured-logging facade

A shallow embedding of the two logging packages of the repository
(`logger/pkg/slog_logger` and `logger/pkg/zap_logger`) together with the small
part of the Go standard library and of `go.uber.org/zap` they call.

Conventions of the embedding.

* Go code that writes log output becomes explicit state passing over a
  `World`: every record a terminal sink receives is appended to a trace, so
  "the record reached sink `i`" is a statement about the trace.
* A nil interface value is `none` of an `Option`; a Go `error` result is an
  `Option Go.Error` (`none` is the nil error) or the error side of `Except`.
* A panic leaving a function is the `some v` of the second component of the
  function's result.
* Values the Go runtime supplies (`time.Now()`, `runtime.Caller`, opening a
  file) are read from the `World` or from an explicit environment argument.
-/

namespace GoToolkit

/-! ## Go values shared by both packages -/

/-- A Go `error` value, identified by the text its `Error()` method returns. -/
structure Go.Error where
  msg : String
deriving DecidableEq, Repr

/-- A Go value of type `any`, as far as the logging code distinguishes them. -/
inductive Go.Any where
  | str (s : String)
  | int (n : Int)
  | err (e : Go.Error)
deriving DecidableEq, Repr

/-- The `context.Context` handed through the logging calls; never inspected. -/
abbrev Context := Nat

/-- Verb `%s` of `fmt.Sprintf` over the characters of a format, with one string
operand: each `%s` is replaced by the operand, every other character is copied. -/
def fmt.sprintfChars : List Char → List Char → List Char
  | [], _ => []
  | '%' :: 's' :: rest, arg => arg ++ fmt.sprintfChars rest arg
  | c :: rest, arg => c :: fmt.sprintfChars rest arg

/-- The call `fmt.Sprintf(format, arg)` for a format whose only verb is `%s`. -/
def fmt.Sprintf (format arg : String) : String :=
  ⟨fmt.sprintfChars format.data arg.data⟩

/-! ## Package `logger/pkg`: message constants (constants.go) -/

def lg.MsgStart : String := "start"
def lg.MsgStartWithParams : String := "start with params"
def lg.MsgEnd : String := "end"
def lg.MsgPanicWasCatched : String := "the panic was catched"
def lg.MsgCompletesWithError : String := "%s completes with error"
def lg.MsgSQLSelectWithError : String := "select from %s completes with error"
def lg.MsgSQLInsertWithError : String := "insert into %s completes with error"
def lg.MsgSQLUpdateWithError : String := "update %s completes with error"
def lg.MsgSQLDeleteWithError : String := "delete from %s completes with error"

/-! ## Standard library `log/slog`: levels, attributes, records -/

/-- The type `slog.Level`: an integer, larger is more severe. -/
abbrev slog.Level := Int

def slog.LevelDebug : slog.Level := -4
def slog.LevelInfo : slog.Level := 0
def slog.LevelWarn : slog.Level := 4
def slog.LevelError : slog.Level := 8

/-- The value of an attribute (`slog.Value`); group values are not modelled. -/
inductive slog.Value where
  | str (s : String)
  | int (n : Int)
  | any (v : Go.Any)
deriving DecidableEq, Repr

/-- A key-value pair of a record (`slog.Attr`). -/
structure slog.Attr where
  Key : String
  Value : slog.Value
deriving DecidableEq, Repr

/-- The attribute `slog.String(key, value)`. -/
def slog.attrString (key value : String) : slog.Attr := ⟨key, .str value⟩

/-- The attribute `slog.Int(key, value)`. -/
def slog.attrInt (key : String) (value : Int) : slog.Attr := ⟨key, .int value⟩

/-- The attribute `slog.Any(key, value)`. -/
def slog.attrAny (key : String) (value : Go.Any) : slog.Attr := ⟨key, .any value⟩

/-- A log record (`slog.Record`): time, level, message, program counter of the
logging call and the attributes in the order they were added. -/
structure slog.Record where
  Time : Nat
  Level : slog.Level
  Message : String
  PC : Nat
  Attrs : List slog.Attr
deriving DecidableEq, Repr

/-! ## The world the logging code acts on -/

/-- The answer of a successful `runtime.Caller`: program counter, file, line. -/
structure CallerInfo where
  pc : Nat
  file : String
  line : Int
deriving DecidableEq, Repr

/-- One delivery: the terminal sink `sink` received `record`; `attrs` are the
attributes the sink had pre-bound at that moment. -/
structure Event where
  sink : Nat
  attrs : List slog.Attr
  record : slog.Record
deriving DecidableEq, Repr

/-- What the slog code reads from and writes to outside itself: the clock
(`time.Now()`), the program counter `runtime.Callers` reports to `slog.Logger`,
the answer `runtime.Caller(skip)` gives inside `callerHandler.Handle`, and the
deliveries made so far, oldest first. -/
structure World where
  now : Nat
  pc : Nat
  caller : Int → Option CallerInfo
  trace : List Event

/-- Appends one delivery to the trace. -/
def World.deliver (w : World) (sink : Nat) (attrs : List slog.Attr) (r : slog.Record) : World :=
  { w with trace := w.trace ++ [⟨sink, attrs, r⟩] }

/-- A terminal `slog.Handler` (a record sink such as `slog.TextHandler` or
`slog.JSONHandler`): `enabled` is its `Enabled` method, `result` the error its
`Handle` method returns, and handling a record delivers it under `id`. -/
structure Sink where
  id : Nat
  enabled : Context → slog.Level → Bool
  result : Context → slog.Record → Option Go.Error
  attrs : List slog.Attr := []

/-! ## Package `slog_logger`: handlers (multi_handler.go, caller_handler.go) -/

mutual
/-- A non-nil value of interface type `slog.Handler`: a terminal sink, a
`*callerHandler` or a `*multiHandler`. -/
inductive slog.Handler where
  | sink (s : Sink)
  | caller (c : slog_logger.callerHandler)
  | multi (m : slog_logger.multiHandler)
/-- The struct `callerHandler` of caller_handler.go. -/
inductive slog_logger.callerHandler where
  | mk (handler : slog.Handler) (skip : Int)
/-- The struct `multiHandler` of multi_handler.go. -/
inductive slog_logger.multiHandler where
  | mk (handlers : List slog.Handler)
end

/-- The field `handlers` of a `multiHandler`. -/
def slog_logger.multiHandler.handlers : slog_logger.multiHandler → List slog.Handler
  | .mk handlers => handlers

mutual
/-- Interface call `h.Enabled(ctx, level)` on a non-nil handler. -/
def slog.Handler.Enabled : slog.Handler → Context → slog.Level → Bool
  | .sink s, ctx, level => s.enabled ctx level
  | .caller c, ctx, level => slog_logger.callerHandler.Enabled c ctx level
  | .multi m, ctx, level => slog_logger.multiHandler.Enabled m ctx level
/-- Method `callerHandler.Enabled` (caller_handler.go 21-23). -/
def slog_logger.callerHandler.Enabled : slog_logger.callerHandler → Context → slog.Level → Bool
  | .mk handler _, ctx, level => slog.Handler.Enabled handler ctx level
/-- Method `multiHandler.Enabled` (multi_handler.go 22-29). -/
def slog_logger.multiHandler.Enabled : slog_logger.multiHandler → Context → slog.Level → Bool
  | .mk handlers, ctx, level => slog_logger.multiHandler.Enabled.loop handlers ctx level
/-- The `for ... range h.handlers` loop of `multiHandler.Enabled`. -/
def slog_logger.multiHandler.Enabled.loop : List slog.Handler → Context → slog.Level → Bool
  | [], _, _ => false
  | handler :: rest, ctx, level =>
    if slog.Handler.Enabled handler ctx level then true
    else slog_logger.multiHandler.Enabled.loop rest ctx level
end

mutual
/-- Interface call `h.Handle(ctx, r)` on a non-nil handler: the world afterwards
and the error returned. -/
def slog.Handler.Handle : slog.Handler → Context → slog.Record → World → World × Option Go.Error
  | .sink s, ctx, r, w => (w.deliver s.id s.attrs r, s.result ctx r)
  | .caller c, ctx, r, w => slog_logger.callerHandler.Handle c ctx r w
  | .multi m, ctx, r, w => slog_logger.multiHandler.Handle m ctx r w
/-- Method `callerHandler.Handle` (caller_handler.go 25-38). -/
def slog_logger.callerHandler.Handle :
    slog_logger.callerHandler → Context → slog.Record → World → World × Option Go.Error
  | .mk handler skip, ctx, r, w =>
    match w.caller skip with
    | some ci =>
      slog.Handler.Handle handler ctx
        { Time := r.Time, Level := r.Level, Message := r.Message, PC := ci.pc,
          Attrs := slog.attrString "file" ci.file :: slog.attrInt "line" ci.line :: r.Attrs } w
    | none => slog.Handler.Handle handler ctx r w
/-- Method `multiHandler.Handle` (multi_handler.go 31-41). -/
def slog_logger.multiHandler.Handle :
    slog_logger.multiHandler → Context → slog.Record → World → World × Option Go.Error
  | .mk handlers, ctx, r, w => slog_logger.multiHandler.Handle.loop handlers ctx r none w
/-- The `for ... range h.handlers` loop of `multiHandler.Handle`; the fourth
argument is the local variable `firstErr`. -/
def slog_logger.multiHandler.Handle.loop :
    List slog.Handler → Context → slog.Record → Option Go.Error → World → World × Option Go.Error
  | [], _, _, firstErr, w => (w, firstErr)
  | handler :: rest, ctx, r, firstErr, w =>
    if slog.Handler.Enabled handler ctx r.Level then
      match slog.Handler.Handle handler ctx r w with
      | (w1, err) =>
        if err.isSome && firstErr.isNone then
          slog_logger.multiHandler.Handle.loop rest ctx r err w1
        else
          slog_logger.multiHandler.Handle.loop rest ctx r firstErr w1
    else
      slog_logger.multiHandler.Handle.loop rest ctx r firstErr w
end

/-- Function `NewMultiHandler` (multi_handler.go 12-20); `none` is the nil
interface value. -/
def slog_logger.NewMultiHandler (handlers : List slog.Handler) : Option slog.Handler :=
  if handlers.length = 0 then none
  else if handlers.length = 1 then handlers.head?
  else some (.multi (.mk handlers))

/-- Function `NewCallerHandler` (caller_handler.go 14-19). -/
def slog_logger.NewCallerHandler (handler : slog.Handler) (skip : Int) : slog.Handler :=
  .caller (.mk handler skip)

/-! ## Standard library `log/slog`: the logger front end -/

/-- A `*slog.Logger`: a front end over one handler. -/
structure slog.Logger where
  handler : slog.Handler

/-- The call `slog.New(h)` for a non-nil handler. -/
def slog.New (h : slog.Handler) : slog.Logger := ⟨h⟩

/-- Method `(*slog.Logger).Enabled`: asks the handler. -/
def slog.Logger.Enabled (l : slog.Logger) (ctx : Context) (level : slog.Level) : Bool :=
  l.handler.Enabled ctx level

/-- Method `(*slog.Logger).log`: nothing happens when the handler is not enabled
for the level; otherwise a record is built from the clock, the level, the
message, the program counter and the arguments, and handed to the handler once;
the error the handler returns is discarded. The arguments are `slog.Attr`
values, as `attrsToArgs` produces them. -/
def slog.Logger.log (l : slog.Logger) (ctx : Context) (level : slog.Level) (msg : String)
    (args : List slog.Attr) (w : World) : World :=
  if !l.Enabled ctx level then w
  else
    (l.handler.Handle ctx
      { Time := w.now, Level := level, Message := msg, PC := w.pc, Attrs := args } w).1

def slog.Logger.DebugContext (l : slog.Logger) (ctx : Context) (msg : String)
    (args : List slog.Attr) (w : World) : World :=
  l.log ctx slog.LevelDebug msg args w

def slog.Logger.InfoContext (l : slog.Logger) (ctx : Context) (msg : String)
    (args : List slog.Attr) (w : World) : World :=
  l.log ctx slog.LevelInfo msg args w

def slog.Logger.WarnContext (l : slog.Logger) (ctx : Context) (msg : String)
    (args : List slog.Attr) (w : World) : World :=
  l.log ctx slog.LevelWarn msg args w

def slog.Logger.ErrorContext (l : slog.Logger) (ctx : Context) (msg : String)
    (args : List slog.Attr) (w : World) : World :=
  l.log ctx slog.LevelError msg args w

/-- Upper case of one character as `unicode.ToUpper` gives it, for the letters
whose upper case is an ASCII letter: `a`..`z`, dotless i (U+0131) and long s
(U+017F). Every other character is left as it is; none of them has an ASCII
upper case. -/
def unicode.ToUpper (c : Char) : Char :=
  if 'a' ≤ c ∧ c ≤ 'z' then Char.ofNat (c.toNat - 32)
  else if c = Char.ofNat 0x131 then 'I'
  else if c = Char.ofNat 0x17F then 'S'
  else c

/-- The call `strings.ToUpper(s)`. -/
def strings.ToUpper (s : String) : String := ⟨s.data.map unicode.ToUpper⟩

/-- A terminal handler as `slog.NewTextHandler` and `slog.NewJSONHandler` build
it with `HandlerOptions.Level = level`: enabled exactly for `level` and above;
`out` names the stream written to and `writeErr` is the error a write returns. -/
def slog.streamSink (out : Nat) (level : slog.Level)
    (writeErr : Nat → slog.Record → Option Go.Error) : Sink :=
  { id := out, enabled := fun _ l => decide (level ≤ l), result := fun _ r => writeErr out r }

/-- The sink of `slog.streamSink` as a `slog.Handler`. -/
def slog.newStreamHandler (out : Nat) (level : slog.Level)
    (writeErr : Nat → slog.Record → Option Go.Error) : slog.Handler :=
  .sink (slog.streamSink out level writeErr)

/-! ## Package `slog_logger`: slog_logger.go -/

namespace slog_logger

def unknownFunctionName : String := "unknown function name"
def funcNameSeparator : String := ": "

/-- The type `SQLErrorType` is a Go `int`. -/
abbrev SQLErrorType := Int

def SQLSelect : SQLErrorType := 0
def SQLInsert : SQLErrorType := 1
def SQLUpdate : SQLErrorType := 2
def SQLDelete : SQLErrorType := 3

/-- The struct `Logger`: the handle applications hold. -/
structure Logger where
  slogLog : slog.Logger
  functionName : String
  ctx : Context

/-- The struct `Config`. -/
structure Config where
  ServiceName : String
  Version : String
  LogLevel : String
  OutputPath : String
deriving DecidableEq, Repr

/-- The struct `LoggerFactory`; `file` is the open log file, if any. -/
structure LoggerFactory where
  slogLog : slog.Logger
  config : Config
  file : Option Nat

/-- What `newSlogLogger` takes from its surroundings: `OpenFile path` is the
outcome of `os.OpenFile(path, O_APPEND|O_CREATE|O_WRONLY, 0644)` (the stream
opened, or the error), `stderr` the stream `os.Stderr`, `writeErr` the error of
writing a record to a stream, and `Default` the logger `slog.Default()`. -/
structure Env where
  OpenFile : String → Except Go.Error Nat
  stderr : Nat
  writeErr : Nat → slog.Record → Option Go.Error
  Default : slog.Logger

/-- Function `createMessageWithFuncName` (slog_logger.go 175-180). -/
def createMessageWithFuncName (funcName msg : String) : String :=
  if funcName = "" then msg
  else funcName ++ funcNameSeparator ++ msg

/-- Function `attrsToArgs` (slog_logger.go 202-211): the attributes, one by one,
as arguments. -/
def attrsToArgs (attrs : List slog.Attr) : List slog.Attr :=
  if attrs.length = 0 then []
  else attrs.foldl (fun args attr => args ++ [attr]) []

/-- Function `parseLogLevel` (slog_logger.go 213-226). -/
def parseLogLevel (level : String) : slog.Level :=
  let u := strings.ToUpper level
  if u = "DEBUG" then slog.LevelDebug
  else if u = "INFO" then slog.LevelInfo
  else if u = "WARN" ∨ u = "WARNING" then slog.LevelWarn
  else if u = "ERROR" then slog.LevelError
  else slog.LevelDebug

/-- The end of `newSlogLogger` (slog_logger.go 266-271): the logger built on the
result of `NewMultiHandler`. -/
def newSlogLogger.build (handlers : List slog.Handler) (dflt : slog.Logger) : slog.Logger :=
  match NewMultiHandler handlers with
  | none => dflt
  | some handler => slog.New handler

/-- Function `newSlogLogger` (slog_logger.go 238-272): the logger and the file
opened, or the error. -/
def newSlogLogger (env : Env) (cfg : Config) : Except Go.Error (slog.Logger × Option Nat) :=
  let logLevel := parseLogLevel cfg.LogLevel
  let consoleHandler := slog.newStreamHandler env.stderr logLevel env.writeErr
  let handlers := [NewCallerHandler consoleHandler 4]
  if cfg.OutputPath ≠ "" then
    match env.OpenFile cfg.OutputPath with
    | .error err => .error ⟨"failed to open log file: " ++ err.msg⟩
    | .ok file =>
      let fileHandler := slog.newStreamHandler file logLevel env.writeErr
      let handlers := handlers ++ [NewCallerHandler fileHandler 4]
      .ok (newSlogLogger.build handlers env.Default, some file)
  else
    .ok (newSlogLogger.build handlers env.Default, none)

/-- Function `NewLoggerFactory` (slog_logger.go 48-59). -/
def NewLoggerFactory (env : Env) (cfg : Config) : Except Go.Error LoggerFactory :=
  match newSlogLogger env cfg with
  | .error err => .error err
  | .ok (slogLog, file) => .ok { slogLog := slogLog, config := cfg, file := file }

/-- Method `Logger.Debug` (slog_logger.go 99-103). -/
def Logger.Debug (l : Logger) (msg : String) (attrs : List slog.Attr) (w : World) : World :=
  if l.slogLog.Enabled l.ctx slog.LevelDebug then
    l.slogLog.DebugContext l.ctx (createMessageWithFuncName l.functionName msg) (attrsToArgs attrs) w
  else w

/-- Method `Logger.Info` (slog_logger.go 105-109). -/
def Logger.Info (l : Logger) (msg : String) (attrs : List slog.Attr) (w : World) : World :=
  if l.slogLog.Enabled l.ctx slog.LevelInfo then
    l.slogLog.InfoContext l.ctx (createMessageWithFuncName l.functionName msg) (attrsToArgs attrs) w
  else w

/-- Method `Logger.Warning` (slog_logger.go 111-115). -/
def Logger.Warning (l : Logger) (msg : String) (attrs : List slog.Attr) (w : World) : World :=
  if l.slogLog.Enabled l.ctx slog.LevelWarn then
    l.slogLog.WarnContext l.ctx (createMessageWithFuncName l.functionName msg) (attrsToArgs attrs) w
  else w

/-- Method `Logger.Error` (slog_logger.go 117-121). -/
def Logger.Error (l : Logger) (msg : String) (attrs : List slog.Attr) (w : World) : World :=
  if l.slogLog.Enabled l.ctx slog.LevelError then
    l.slogLog.ErrorContext l.ctx (createMessageWithFuncName l.functionName msg) (attrsToArgs attrs) w
  else w

/-- Method `Logger.ErrorIn` (slog_logger.go 123-127); `err` is a non-nil error. -/
def Logger.ErrorIn (l : Logger) (funcName : String) (err : Go.Error) (attrs : List slog.Attr)
    (w : World) : World :=
  let msg := fmt.Sprintf lg.MsgCompletesWithError funcName
  let allAttrs := attrs ++ [slog.attrString "error" err.msg]
  l.slogLog.ErrorContext l.ctx (createMessageWithFuncName l.functionName msg) (attrsToArgs allAttrs) w

/-- Method `Logger.ErrorSQL` (slog_logger.go 129-146); `err` is a non-nil error. -/
def Logger.ErrorSQL (l : Logger) (operation : SQLErrorType) (table : String) (err : Go.Error)
    (attrs : List slog.Attr) (w : World) : World :=
  let msg :=
    if operation = SQLSelect then fmt.Sprintf lg.MsgSQLSelectWithError table
    else if operation = SQLInsert then fmt.Sprintf lg.MsgSQLInsertWithError table
    else if operation = SQLUpdate then fmt.Sprintf lg.MsgSQLUpdateWithError table
    else if operation = SQLDelete then fmt.Sprintf lg.MsgSQLDeleteWithError table
    else fmt.Sprintf "SQL operation error on table %s" table
  let allAttrs := attrs ++ [slog.attrString "error" err.msg, slog.attrString "table" table]
  l.slogLog.ErrorContext l.ctx (createMessageWithFuncName l.functionName msg) (attrsToArgs allAttrs) w

def Logger.ErrorSQLSelect (l : Logger) (table : String) (err : Go.Error) (attrs : List slog.Attr)
    (w : World) : World :=
  l.ErrorSQL SQLSelect table err attrs w

def Logger.ErrorSQLInsert (l : Logger) (table : String) (err : Go.Error) (attrs : List slog.Attr)
    (w : World) : World :=
  l.ErrorSQL SQLInsert table err attrs w

def Logger.ErrorSQLUpdate (l : Logger) (table : String) (err : Go.Error) (attrs : List slog.Attr)
    (w : World) : World :=
  l.ErrorSQL SQLUpdate table err attrs w

def Logger.ErrorSQLDelete (l : Logger) (table : String) (err : Go.Error) (attrs : List slog.Attr)
    (w : World) : World :=
  l.ErrorSQL SQLDelete table err attrs w

/-- Method `Logger.End` (slog_logger.go 164-173), run as a deferred call.
`recovered` is what `recover()` returns: `none` when no panic is in flight,
`some v` for a panic with value `v`. The result is the world afterwards and the
value `End` panics with (`none`: it returns normally). -/
def Logger.End (l : Logger) (recovered : Option Go.Any) (w : World) : World × Option Go.Any :=
  match recovered with
  | some err =>
    let w1 := l.slogLog.ErrorContext l.ctx lg.MsgPanicWasCatched
      [slog.attrAny "error" err, slog.attrString "function" l.functionName] w
    let w2 := l.slogLog.InfoContext l.ctx (createMessageWithFuncName l.functionName lg.MsgEnd) [] w1
    (w2, some err)
  | none =>
    (l.slogLog.InfoContext l.ctx (createMessageWithFuncName l.functionName lg.MsgEnd) [] w, none)

end slog_logger

/-! ## Library `go.uber.org/zap`: levels, fields, cores, logger -/

/-- The type `zapcore.Level`: an integer, larger is more severe. -/
abbrev zapcore.Level := Int

def zapcore.DebugLevel : zapcore.Level := -1
def zapcore.InfoLevel : zapcore.Level := 0
def zapcore.WarnLevel : zapcore.Level := 1
def zapcore.ErrorLevel : zapcore.Level := 2
def zapcore.DPanicLevel : zapcore.Level := 3
def zapcore.PanicLevel : zapcore.Level := 4
def zapcore.FatalLevel : zapcore.Level := 5

/-- The payload of a `zap.Field`. -/
inductive zap.FieldValue where
  | str (s : String)
  | any (v : Go.Any)
  | error (e : Go.Error)
  | stack
deriving DecidableEq, Repr

/-- A key-value pair of a zap entry (`zap.Field`). -/
structure zap.Field where
  Key : String
  Value : zap.FieldValue
deriving DecidableEq, Repr

/-- The field `zap.String(key, value)`. -/
def zap.fieldString (key value : String) : zap.Field := ⟨key, .str value⟩

/-- The field `zap.Error(err)` for a non-nil error: key `error`. -/
def zap.fieldError (err : Go.Error) : zap.Field := ⟨"error", .error err⟩

/-- The field `zap.Any(key, value)`. -/
def zap.fieldAny (key : String) (value : Go.Any) : zap.Field := ⟨key, .any value⟩

/-- The field `zap.Stack(key)`: the stack trace of the calling goroutine. -/
def zap.fieldStack (key : String) : zap.Field := ⟨key, .stack⟩

/-- A log entry (`zapcore.Entry`): level, time and message. -/
structure zapcore.Entry where
  Level : zapcore.Level
  Time : Nat
  Message : String
deriving DecidableEq, Repr

/-- One write: the core writing to stream `out` wrote `entry` with `fields`;
`bound` are the fields the core had pre-bound. -/
structure ZapEvent where
  out : Nat
  bound : List zap.Field
  entry : zapcore.Entry
  fields : List zap.Field
deriving DecidableEq, Repr

/-- What the zap code reads from and writes to outside itself: the clock and the
writes made so far, oldest first. -/
structure ZapWorld where
  now : Nat
  trace : List ZapEvent
deriving DecidableEq, Repr

/-- The core `zapcore.NewCore(enc, ws, level)` builds: it writes to stream `out`
the entries at `level` and above. -/
structure zapcore.ioCore where
  out : Nat
  level : zapcore.Level
  fields : List zap.Field := []
deriving DecidableEq, Repr

/-- A value of interface type `zapcore.Core`: the no-op core, an `ioCore`, or the
`multiCore` of `zapcore.NewTee`. -/
inductive zapcore.Core where
  | nop
  | io (c : zapcore.ioCore)
  | multi (cores : List zapcore.Core)

/-- Method `ioCore.Enabled`: the level enabler admits `level` and above. -/
def zapcore.ioCore.Enabled (c : zapcore.ioCore) (lvl : zapcore.Level) : Bool :=
  decide (c.level ≤ lvl)

mutual
/-- Interface call `core.Enabled(lvl)`; a `multiCore` is enabled when one of its
cores is. -/
def zapcore.Core.Enabled : zapcore.Core → zapcore.Level → Bool
  | .nop, _ => false
  | .io c, lvl => c.Enabled lvl
  | .multi cores, lvl => zapcore.Core.Enabled.loop cores lvl
/-- The loop of `multiCore.Enabled`. -/
def zapcore.Core.Enabled.loop : List zapcore.Core → zapcore.Level → Bool
  | [], _ => false
  | core :: rest, lvl =>
    if zapcore.Core.Enabled core lvl then true else zapcore.Core.Enabled.loop rest lvl
end

mutual
/-- Interface call `core.Check(ent, ce)`: the cores that will write the entry,
`ce` being those collected so far. -/
def zapcore.Core.Check : zapcore.Core → zapcore.Entry → List zapcore.ioCore → List zapcore.ioCore
  | .nop, _, ce => ce
  | .io c, ent, ce => if c.Enabled ent.Level then ce ++ [c] else ce
  | .multi cores, ent, ce => zapcore.Core.Check.loop cores ent ce
/-- The loop of `multiCore.Check`. -/
def zapcore.Core.Check.loop :
    List zapcore.Core → zapcore.Entry → List zapcore.ioCore → List zapcore.ioCore
  | [], _, ce => ce
  | core :: rest, ent, ce => zapcore.Core.Check.loop rest ent (zapcore.Core.Check core ent ce)
end

/-- Method `CheckedEntry.Write`: each collected core writes the entry once. -/
def zapcore.CheckedEntry.Write (cores : List zapcore.ioCore) (ent : zapcore.Entry)
    (fields : List zap.Field) (w : ZapWorld) : ZapWorld :=
  cores.foldl (fun w c => { w with trace := w.trace ++ [⟨c.out, c.fields, ent, fields⟩] }) w

/-- The call `zapcore.NewTee(cores...)`. -/
def zapcore.NewTee (cores : List zapcore.Core) : zapcore.Core :=
  match cores with
  | [] => .nop
  | [core] => core
  | _ => .multi cores

/-- A `*zap.Logger`: its core and the caller options it was built with. -/
structure zap.Logger where
  core : zapcore.Core
  addCaller : Bool
  callerSkip : Int

/-- Methods `Debug`, `Info`, `Warn` and `Error` of `*zap.Logger`, for `lvl` one of
the four levels below `DPanicLevel`: nothing happens when the core is not
enabled for the level; otherwise the entry is built from the level, the clock
and the message, the core is asked which cores take it, and each of those writes
it once with the fields. -/
def zap.Logger.logAt (log : zap.Logger) (lvl : zapcore.Level) (msg : String)
    (fields : List zap.Field) (w : ZapWorld) : ZapWorld :=
  if decide (lvl < zapcore.DPanicLevel) && !log.core.Enabled lvl then w
  else
    let ent : zapcore.Entry := { Level := lvl, Time := w.now, Message := msg }
    zapcore.CheckedEntry.Write (log.core.Check ent []) ent fields w

def zap.Logger.Debug (log : zap.Logger) (msg : String) (fields : List zap.Field)
    (w : ZapWorld) : ZapWorld :=
  log.logAt zapcore.DebugLevel msg fields w

def zap.Logger.Info (log : zap.Logger) (msg : String) (fields : List zap.Field)
    (w : ZapWorld) : ZapWorld :=
  log.logAt zapcore.InfoLevel msg fields w

def zap.Logger.Warn (log : zap.Logger) (msg : String) (fields : List zap.Field)
    (w : ZapWorld) : ZapWorld :=
  log.logAt zapcore.WarnLevel msg fields w

def zap.Logger.Error (log : zap.Logger) (msg : String) (fields : List zap.Field)
    (w : ZapWorld) : ZapWorld :=
  log.logAt zapcore.ErrorLevel msg fields w

/-- Lower case of one character as `unicode.ToLower` gives it, for the letters
whose lower case is an ASCII letter: `A`..`Z`, dotted capital I (U+0130) and the
Kelvin sign (U+212A). Every other character is left as it is. -/
def unicode.ToLower (c : Char) : Char :=
  if 'A' ≤ c ∧ c ≤ 'Z' then Char.ofNat (c.toNat + 32)
  else if c = Char.ofNat 0x130 then 'i'
  else if c = Char.ofNat 0x212A then 'k'
  else c

/-- The double quote character as a string. -/
def quoteMark : String := String.singleton (Char.ofNat 34)

/-- The function `zapcore.ParseLevel` as zap documents it: the level names
`debug`, `info`, `warn`, `error`, `dpanic`, `panic`, `fatal` in any letter case,
the empty text as `info`, and an error for every other text. -/
def zapcore.ParseLevel (text : String) : zapcore.Level × Option Go.Error :=
  let t : String := ⟨text.data.map unicode.ToLower⟩
  if t = "debug" then (zapcore.DebugLevel, none)
  else if t = "info" ∨ t = "" then (zapcore.InfoLevel, none)
  else if t = "warn" then (zapcore.WarnLevel, none)
  else if t = "error" then (zapcore.ErrorLevel, none)
  else if t = "dpanic" then (zapcore.DPanicLevel, none)
  else if t = "panic" then (zapcore.PanicLevel, none)
  else if t = "fatal" then (zapcore.FatalLevel, none)
  else (zapcore.InfoLevel, some ⟨"unrecognized level: " ++ quoteMark ++ text ++ quoteMark⟩)

/-! ## Package `zap_logger`: zap_logger.go -/

namespace zap_logger

def unknownFunctionName : String := "unknown function name"
def serviceNameSeparator : String := " - "
def funcNameSeparator : String := ": "

/-- The type `SQLErrorType` is a Go `int`. -/
abbrev SQLErrorType := Int

def SQLSelect : SQLErrorType := 0
def SQLInsert : SQLErrorType := 1
def SQLUpdate : SQLErrorType := 2
def SQLDelete : SQLErrorType := 3

/-- The struct `ZapLogger`. -/
structure ZapLogger where
  zapLog : zap.Logger
  functionName : String

/-- The struct `Config`. -/
structure Config where
  ServiceName : String
  Version : String
  LogLevel : String
  OutputPath : String
deriving DecidableEq, Repr

/-- The struct `ZapLoggerFactory`. -/
structure ZapLoggerFactory where
  zapLog : zap.Logger
  config : Config

/-- What `newZapLogger` takes from its surroundings: `ParseLevel` is the library
function `zapcore.ParseLevel` (the level and the error it returns), `OpenFile
path` the outcome of `os.OpenFile(path, O_APPEND|O_CREATE|O_WRONLY, 0644)`, and
`stderr` the stream `os.Stderr`. -/
structure Env where
  ParseLevel : String → zapcore.Level × Option Go.Error
  OpenFile : String → Except Go.Error Nat
  stderr : Nat

/-- Function `createMessageWithFuncName` (zap_logger.go 111-116). -/
def createMessageWithFuncName (funcName msg : String) : String :=
  if funcName = "" then msg
  else funcName ++ funcNameSeparator ++ msg

/-- Function `parseZapLogLevel` (zap_logger.go 156-165): the level and the error
returned. -/
def parseZapLogLevel (env : Env) (level : String) : zapcore.Level × Option Go.Error :=
  if level = "" then (zapcore.DebugLevel, none)
  else
    match env.ParseLevel level with
    | (_, some err) => (zapcore.DebugLevel, some err)
    | (minLogLevel, none) => (minLogLevel, none)

/-- Function `newZapLogger` (zap_logger.go 167-204); the encoders, which fix only
the layout of the output, are left out. -/
def newZapLogger (env : Env) (cfg : Config) : Except Go.Error zap.Logger :=
  match parseZapLogLevel env cfg.LogLevel with
  | (_, some err) => .error err
  | (logLevel, none) =>
    let cores : List zapcore.Core := [.io { out := env.stderr, level := logLevel }]
    if cfg.OutputPath ≠ "" then
      match env.OpenFile cfg.OutputPath with
      | .error err => .error ⟨"failed to open log file: " ++ err.msg⟩
      | .ok file =>
        let fileCore : zapcore.Core := .io { out := file, level := logLevel }
        let cores := cores ++ [fileCore]
        .ok { core := zapcore.NewTee cores, addCaller := true, callerSkip := 1 }
    else
      .ok { core := zapcore.NewTee cores, addCaller := true, callerSkip := 1 }

/-- Function `NewZapLoggerFactory` (zap_logger.go 77-87). -/
def NewZapLoggerFactory (env : Env) (cfg : Config) : Except Go.Error ZapLoggerFactory :=
  match newZapLogger env cfg with
  | .error err => .error err
  | .ok zapLog => .ok { zapLog := zapLog, config := cfg }

/-- Method `ZapLogger.Debug` (zap_logger.go 213-217). -/
def ZapLogger.Debug (z : ZapLogger) (msg : String) (fields : List zap.Field)
    (w : ZapWorld) : ZapWorld :=
  if z.zapLog.core.Enabled zapcore.DebugLevel then
    z.zapLog.Debug (createMessageWithFuncName z.functionName msg) fields w
  else w

/-- Method `ZapLogger.Info` (zap_logger.go 219-223). -/
def ZapLogger.Info (z : ZapLogger) (msg : String) (fields : List zap.Field)
    (w : ZapWorld) : ZapWorld :=
  if z.zapLog.core.Enabled zapcore.InfoLevel then
    z.zapLog.Info (createMessageWithFuncName z.functionName msg) fields w
  else w

/-- Method `ZapLogger.Warning` (zap_logger.go 225-229). -/
def ZapLogger.Warning (z : ZapLogger) (msg : String) (fields : List zap.Field)
    (w : ZapWorld) : ZapWorld :=
  if z.zapLog.core.Enabled zapcore.WarnLevel then
    z.zapLog.Warn (createMessageWithFuncName z.functionName msg) fields w
  else w

/-- Method `ZapLogger.Error` (zap_logger.go 231-235). -/
def ZapLogger.Error (z : ZapLogger) (msg : String) (fields : List zap.Field)
    (w : ZapWorld) : ZapWorld :=
  if z.zapLog.core.Enabled zapcore.ErrorLevel then
    z.zapLog.Error (createMessageWithFuncName z.functionName msg) fields w
  else w

/-- Method `ZapLogger.ErrorIn` (zap_logger.go 237-241); `err` is a non-nil error. -/
def ZapLogger.ErrorIn (z : ZapLogger) (funcName : String) (err : Go.Error)
    (fields : List zap.Field) (w : ZapWorld) : ZapWorld :=
  let msg := fmt.Sprintf lg.MsgCompletesWithError funcName
  let allFields := fields ++ [zap.fieldError err]
  z.zapLog.Error (createMessageWithFuncName z.functionName msg) allFields w

/-- Method `ZapLogger.ErrorSQL` (zap_logger.go 243-260); `err` is a non-nil error. -/
def ZapLogger.ErrorSQL (z : ZapLogger) (operation : SQLErrorType) (table : String)
    (err : Go.Error) (fields : List zap.Field) (w : ZapWorld) : ZapWorld :=
  let msg :=
    if operation = SQLSelect then fmt.Sprintf lg.MsgSQLSelectWithError table
    else if operation = SQLInsert then fmt.Sprintf lg.MsgSQLInsertWithError table
    else if operation = SQLUpdate then fmt.Sprintf lg.MsgSQLUpdateWithError table
    else if operation = SQLDelete then fmt.Sprintf lg.MsgSQLDeleteWithError table
    else fmt.Sprintf "SQL operation error on table %s" table
  let allFields := fields ++ [zap.fieldError err]
  z.zapLog.Error (createMessageWithFuncName z.functionName msg) allFields w

def ZapLogger.ErrorSQLSelect (z : ZapLogger) (table : String) (err : Go.Error)
    (fields : List zap.Field) (w : ZapWorld) : ZapWorld :=
  z.ErrorSQL SQLSelect table err fields w

def ZapLogger.ErrorSQLInsert (z : ZapLogger) (table : String) (err : Go.Error)
    (fields : List zap.Field) (w : ZapWorld) : ZapWorld :=
  z.ErrorSQL SQLInsert table err fields w

def ZapLogger.ErrorSQLUpdate (z : ZapLogger) (table : String) (err : Go.Error)
    (fields : List zap.Field) (w : ZapWorld) : ZapWorld :=
  z.ErrorSQL SQLUpdate table err fields w

def ZapLogger.ErrorSQLDelete (z : ZapLogger) (table : String) (err : Go.Error)
    (fields : List zap.Field) (w : ZapWorld) : ZapWorld :=
  z.ErrorSQL SQLDelete table err fields w

/-- Method `ZapLogger.End` (zap_logger.go 286-297), run as a deferred call.
`recovered` is what `recover()` returns: `none` when no panic is in flight,
`some v` for a panic with value `v`. The result is the world afterwards and the
value `End` panics with (`none`: it returns normally). -/
def ZapLogger.End (z : ZapLogger) (recovered : Option Go.Any) (w : ZapWorld) :
    ZapWorld × Option Go.Any :=
  match recovered with
  | some err =>
    let w1 := z.zapLog.Error lg.MsgPanicWasCatched
      [zap.fieldAny "error" err, zap.fieldStack "stacktrace"] w
    let w2 := z.zapLog.Info (createMessageWithFuncName z.functionName lg.MsgEnd) [] w1
    (w2, some err)
  | none =>
    (z.zapLog.Info (createMessageWithFuncName z.functionName lg.MsgEnd) [] w, none)

end zap_logger

/-! ## Deriving handlers and handles with pre-bound fields -/

mutual
/-- Interface call `h.WithAttrs(attrs)` on a non-nil handler. A terminal sink
returns a copy of itself with the attributes added to those it has pre-bound.
The result is `none` when the handler returned is nil or holds a nil handler. -/
def slog.Handler.WithAttrs : slog.Handler → List slog.Attr → Option slog.Handler
  | .sink s, attrs => some (.sink { s with attrs := s.attrs ++ attrs })
  | .caller c, attrs => slog_logger.callerHandler.WithAttrs c attrs
  | .multi m, attrs => slog_logger.multiHandler.WithAttrs m attrs
/-- Method `callerHandler.WithAttrs` (caller_handler.go 40-48). -/
def slog_logger.callerHandler.WithAttrs :
    slog_logger.callerHandler → List slog.Attr → Option slog.Handler
  | .mk handler skip, attrs =>
    if attrs.length = 0 then some (.caller (.mk handler skip))
    else
      match slog.Handler.WithAttrs handler attrs with
      | some h => some (.caller (.mk h skip))
      | none => none
/-- Method `multiHandler.WithAttrs` (multi_handler.go 43-53). -/
def slog_logger.multiHandler.WithAttrs :
    slog_logger.multiHandler → List slog.Attr → Option slog.Handler
  | .mk handlers, attrs =>
    if attrs.length = 0 then some (.multi (.mk handlers))
    else
      match slog_logger.multiHandler.WithAttrs.loop handlers attrs with
      | some hs => slog_logger.NewMultiHandler hs
      | none => none
/-- The loop of `multiHandler.WithAttrs` filling the fresh slice `handlers`. -/
def slog_logger.multiHandler.WithAttrs.loop :
    List slog.Handler → List slog.Attr → Option (List slog.Handler)
  | [], _ => some []
  | handler :: rest, attrs =>
    match slog.Handler.WithAttrs handler attrs,
        slog_logger.multiHandler.WithAttrs.loop rest attrs with
    | some h, some hs => some (h :: hs)
    | _, _ => none
end

/-- Method `(*slog.Logger).With`: the logger itself when there are no arguments,
otherwise a copy whose handler is `handler.WithAttrs(args)`; `none` when that
handler is nil. -/
def slog.Logger.With (l : slog.Logger) (args : List slog.Attr) : Option slog.Logger :=
  if args.length = 0 then some l
  else
    match l.handler.WithAttrs args with
    | some h => some ⟨h⟩
    | none => none

/-- Method `Logger.WithFields` (slog_logger.go 91-97): a new handle; the receiver
is only read. -/
def slog_logger.Logger.WithFields (l : slog_logger.Logger) (attrs : List slog.Attr) :
    Option slog_logger.Logger :=
  match l.slogLog.With (slog_logger.attrsToArgs attrs) with
  | some lg1 => some { slogLog := lg1, functionName := l.functionName, ctx := l.ctx }
  | none => none

/-- A copy of an `ioCore` with further fields bound (`ioCore.With`). -/
def zapcore.ioCore.With (c : zapcore.ioCore) (fields : List zap.Field) : zapcore.ioCore :=
  { c with fields := c.fields ++ fields }

mutual
/-- Interface call `core.With(fields)`; a `multiCore` derives each of its cores. -/
def zapcore.Core.With : zapcore.Core → List zap.Field → zapcore.Core
  | .nop, _ => .nop
  | .io c, fields => .io (c.With fields)
  | .multi cores, fields => .multi (zapcore.Core.With.loop cores fields)
/-- The loop of `multiCore.With`. -/
def zapcore.Core.With.loop : List zapcore.Core → List zap.Field → List zapcore.Core
  | [], _ => []
  | core :: rest, fields => zapcore.Core.With core fields :: zapcore.Core.With.loop rest fields
end

/-- Method `(*zap.Logger).With`: the logger itself when there are no fields,
otherwise a copy over `core.With(fields)`. -/
def zap.Logger.With (log : zap.Logger) (fields : List zap.Field) : zap.Logger :=
  if fields.length = 0 then log
  else { log with core := log.core.With fields }

/-- Method `ZapLogger.WithFields` (zap_logger.go 206-211): a new handle; the
receiver is only read. -/
def zap_logger.ZapLogger.WithFields (z : zap_logger.ZapLogger) (fields : List zap.Field) :
    zap_logger.ZapLogger :=
  { zapLog := z.zapLog.With fields, functionName := z.functionName }

/-! ## Capturing the caller: `getFunctionName` and `GetLogger` -/

/-- One frame of a goroutine's call stack: the full name of the function running
in it, as `runtime.FuncForPC(pc).Name()` reports it. -/
structure runtime.Frame where
  function : String
deriving DecidableEq, Repr

/-- The call `runtime.Caller(skip)` made by the function of the first frame of
`stack` (innermost frame first): skip 0 identifies that function itself, skip 1
its caller, and so on. `none` is `ok = false`: the stack is not that deep. -/
def runtime.Caller (stack : List runtime.Frame) (skip : Int) : Option runtime.Frame :=
  if skip < 0 then none else stack.get? skip.toNat

/-- Scan of `strings.LastIndex` for a one-character separator: `i` is the
position of the next character, `last` the last match so far. -/
def strings.LastIndex.scan (sep : Char) : List Char → Int → Int → Int
  | [], _, last => last
  | c :: rest, i, last => strings.LastIndex.scan sep rest (i + 1) (if c = sep then i else last)

/-- The call `strings.LastIndex(s, sep)` for a one-character separator: the
position of its last occurrence, `-1` when there is none. -/
def strings.LastIndex (s : String) (sep : Char) : Int :=
  strings.LastIndex.scan sep s.data 0 (-1)

/-- The slice `s[from:]`. -/
def strings.sliceFrom (s : String) (start : Int) : String := ⟨s.data.drop start.toNat⟩

/-- The shortening step of `getFunctionName` (slog_logger.go 190-197, the same
text in zap_logger.go 126-133): what follows the last `/`, then what follows
the last `.` of that. -/
def getFunctionName.shorten (funcName : String) : String :=
  let idx := strings.LastIndex funcName '/'
  let funcName := if idx ≠ -1 then strings.sliceFrom funcName (idx + 1) else funcName
  let idx := strings.LastIndex funcName '.'
  if idx ≠ -1 then strings.sliceFrom funcName (idx + 1) else funcName

/-- The frame of `getFunctionName` of the slog package itself. -/
def slog_logger.frameGetFunctionName : runtime.Frame :=
  ⟨"github.com/guryev-vladislav/digital-showcase/golang/lib/logger/pkg/slog_logger.getFunctionName"⟩

/-- The frame of `LoggerFactory.GetLogger` itself. -/
def slog_logger.frameGetLogger : runtime.Frame :=
  ⟨"github.com/guryev-vladislav/digital-showcase/golang/lib/logger/pkg/slog_logger.(*LoggerFactory).GetLogger"⟩

/-- Function `getFunctionName` (slog_logger.go 182-200). `stack` is the call
stack of its caller, the caller's own frame first; the function runs in a frame
of its own on top of it. -/
def slog_logger.getFunctionName (stack : List runtime.Frame) (skippedStackFrames : Int)
    (shortFunctionName : Bool) : String :=
  match runtime.Caller (slog_logger.frameGetFunctionName :: stack) (skippedStackFrames + 1) with
  | none => slog_logger.unknownFunctionName
  | some fr =>
    if shortFunctionName then getFunctionName.shorten fr.function else fr.function

/-- Method `LoggerFactory.GetLogger` (slog_logger.go 61-82). `stack` is the call
stack of the caller, the frame of the function that calls `GetLogger` first. The
result is the handle and the world after the start record. -/
def slog_logger.LoggerFactory.GetLogger (f : slog_logger.LoggerFactory)
    (stack : List runtime.Frame) (ctx : Context) (attrs : List slog.Attr) (w : World) :
    slog_logger.Logger × World :=
  let msg := if attrs.length > 0 then lg.MsgStartWithParams else lg.MsgStart
  let functionName := slog_logger.getFunctionName (slog_logger.frameGetLogger :: stack) 2 true
  let logger : slog_logger.Logger :=
    { slogLog := f.slogLog, functionName := functionName, ctx := ctx }
  if attrs.length > 0 then
    (logger, logger.slogLog.InfoContext ctx
      (slog_logger.createMessageWithFuncName functionName msg) (slog_logger.attrsToArgs attrs) w)
  else
    (logger, logger.slogLog.InfoContext ctx
      (slog_logger.createMessageWithFuncName functionName msg) [] w)

/-- The frame of `getFunctionName` of the zap package itself. -/
def zap_logger.frameGetFunctionName : runtime.Frame :=
  ⟨"github.com/guryev-vladislav/digital-showcase/golang/lib/logger/pkg/zap_logger.getFunctionName"⟩

/-- The frame of `ZapLoggerFactory.GetLogger` itself. -/
def zap_logger.frameGetLogger : runtime.Frame :=
  ⟨"github.com/guryev-vladislav/digital-showcase/golang/lib/logger/pkg/zap_logger.(*ZapLoggerFactory).GetLogger"⟩

/-- Function `getFunctionName` (zap_logger.go 118-136); `stack` as for the slog
one. -/
def zap_logger.getFunctionName (stack : List runtime.Frame) (skippedStackFrames : Int)
    (shortFunctionName : Bool) : String :=
  match runtime.Caller (zap_logger.frameGetFunctionName :: stack) (skippedStackFrames + 1) with
  | none => zap_logger.unknownFunctionName
  | some fr =>
    if shortFunctionName then getFunctionName.shorten fr.function else fr.function

/-- Method `ZapLoggerFactory.GetLogger` (zap_logger.go 89-105); `stack` as for
the slog one. The context argument is ignored by the code. -/
def zap_logger.ZapLoggerFactory.GetLogger (f : zap_logger.ZapLoggerFactory)
    (stack : List runtime.Frame) (_ctx : Context) (fields : List zap.Field) (w : ZapWorld) :
    zap_logger.ZapLogger × ZapWorld :=
  let msg := if fields.length > 0 then lg.MsgStartWithParams else lg.MsgStart
  let functionName := zap_logger.getFunctionName (zap_logger.frameGetLogger :: stack) 1 true
  let logger : zap_logger.ZapLogger := { zapLog := f.zapLog, functionName := functionName }
  (logger, logger.zapLog.Info (zap_logger.createMessageWithFuncName functionName msg) fields w)

/-! ## The gRPC services (servers/grpc_server) -/

/-- A gRPC status code (`codes.Code`), by its number. -/
abbrev codes.Code := Nat

def codes.InvalidArgument : codes.Code := 3
def codes.ResourceExhausted : codes.Code := 8

/-- An error carrying a gRPC status, as `status.Errorf(code, ...)` builds it and
as a failing `stream.Send` returns it. -/
structure status.Error where
  code : codes.Code
  msg : String
deriving DecidableEq, Repr

namespace petname_server

/-- The message `PetnameRequest`. -/
structure PetnameRequest where
  Words : Int
  Separator : String
deriving DecidableEq, Repr

/-- The message `PetnameStreamRequest`. -/
structure PetnameStreamRequest where
  Words : Int
  Separator : String
  Names : Int
deriving DecidableEq, Repr

/-- The message `PetnameResponse`. -/
structure PetnameResponse where
  Name : String
deriving DecidableEq, Repr

/-- The library call `petname.Generate(words, separator)`, a random name
generator: `gen k words separator` is what its `k`-th call of one request
returns. -/
abbrev Generator := Nat → Int → String → String

/-- The server side of the response stream: `Send k resp` is the error the
`k`-th call of `stream.Send` returns when given `resp` (`none`: it succeeds);
calls are counted from 0. -/
structure Stream where
  Send : Nat → PetnameResponse → Option status.Error

/-- Method `server.Generate` (petname/server.go 32-42). -/
def Generate (gen : Generator) (req : PetnameRequest) : Except status.Error PetnameResponse :=
  if req.Words ≤ 0 then
    .error ⟨codes.InvalidArgument, "words must be greater than 0"⟩
  else
    let name := gen 0 req.Words req.Separator
    .ok { Name := name }

/-- The loop `for range req.Names` of `GenerateMany` with `remaining` rounds to
go: `k` counts the rounds done and `sent` lists the responses handed to
`stream.Send` so far. The result is that list at the end and the error
returned. -/
def GenerateMany.loop (gen : Generator) (stream : Stream) (req : PetnameStreamRequest) :
    Nat → Nat → List PetnameResponse → List PetnameResponse × Option status.Error
  | 0, _, sent => (sent, none)
  | remaining + 1, k, sent =>
    let name := gen k req.Words req.Separator
    match stream.Send k { Name := name } with
    | some err => (sent ++ [{ Name := name }], some err)
    | none => GenerateMany.loop gen stream req remaining (k + 1) (sent ++ [{ Name := name }])

/-- Method `server.GenerateMany` (petname/server.go 44-63): the responses handed
to `stream.Send`, in order, and the error returned. -/
def GenerateMany (gen : Generator) (req : PetnameStreamRequest) (stream : Stream) :
    List PetnameResponse × Option status.Error :=
  if req.Words ≤ 0 then
    ([], some ⟨codes.InvalidArgument, "words must be greater than 0"⟩)
  else if req.Names ≤ 0 then
    ([], some ⟨codes.InvalidArgument, "names must be greater than 0"⟩)
  else
    GenerateMany.loop gen stream req req.Names.toNat 0 []

end petname_server

namespace words_server

/-- The message `WordsRequest`. -/
structure WordsRequest where
  Phrase : String
deriving DecidableEq, Repr

/-- The message `WordsReply`. -/
structure WordsReply where
  Words : List String
deriving DecidableEq, Repr

def maxMessageSize : Nat := 4 * 1024

/-- Method `server.Norm` (search-services/words/server.go 34-45). `norm` is the
normalizer `words.Norm` of the package `words`; the second component lists the
phrases it was called with. `len(in.Phrase)` is the length in bytes. -/
def Norm (norm : String → List String) (req : WordsRequest) :
    Except status.Error WordsReply × List String :=
  if req.Phrase.utf8ByteSize > maxMessageSize then
    (.error ⟨codes.ResourceExhausted,
      "message size " ++ toString req.Phrase.utf8ByteSize
        ++ " bytes exceeds maximum allowed " ++ toString maxMessageSize ++ " bytes"⟩, [])
  else
    (.ok { Words := norm req.Phrase }, [req.Phrase])

end words_server

/-! ## Vocabulary of the statements -/

/-- The deliveries a record makes when handed to each sink of a list in turn. -/
def deliveries (ss : List Sink) (r : slog.Record) : List Event :=
  ss.map (fun s => ⟨s.id, s.attrs, r⟩)

/-- The text `s` begins with the text `p`. -/
def beginsWith (p s : String) : Prop := p.data <+: s.data

instance (p s : String) : Decidable (beginsWith p s) := by
  unfold beginsWith; infer_instance

/-- World `w1` arises from `w` by further deliveries only, and every record
delivered on the way satisfies `P`. -/
def World.extendsBy (P : slog.Record → Prop) (w w1 : World) : Prop :=
  ∃ added : List Event, w1.trace = w.trace ++ added ∧ ∀ ev ∈ added, P ev.record

/-- The world after record `r` is offered to handler `h`: handed over once when
`h` is enabled for the level of `r`, nothing at all otherwise. -/
def offer (h : slog.Handler) (ctx : Context) (r : slog.Record) (w : World) : World :=
  if h.Enabled ctx r.Level then (h.Handle ctx r w).1 else w

/-- The zap world after entry `ent` is offered to `core`: written once by each
core below it that takes the entry when `core` is enabled for the level of `ent`,
nothing at all otherwise. -/
def zapOffer (core : zapcore.Core) (ent : zapcore.Entry) (fields : List zap.Field)
    (w : ZapWorld) : ZapWorld :=
  if core.Enabled ent.Level then zapcore.CheckedEntry.Write (core.Check ent []) ent fields w
  else w

/-- The start every message of a handle with captured name `fn` is given: the
name and the separator, or nothing for the empty name. -/
def nameTag (fn : String) : String := if fn = "" then "" else fn ++ ": "

/-- The four operation kinds the spec names for `error_sql`. -/
inductive spec.SQLKind where
  | Select
  | Insert
  | Update
  | Delete
deriving DecidableEq, Repr

/-- The `SQLErrorType` constant of the slog package for a kind. -/
def spec.SQLKind.code : spec.SQLKind → slog_logger.SQLErrorType
  | .Select => slog_logger.SQLSelect
  | .Insert => slog_logger.SQLInsert
  | .Update => slog_logger.SQLUpdate
  | .Delete => slog_logger.SQLDelete

/-- The message the spec gives per kind, instantiated with table name `t`. -/
def spec.sqlPhrase : spec.SQLKind → String → String
  | .Select, t => "select from " ++ t ++ " completes with error"
  | .Insert, t => "insert into " ++ t ++ " completes with error"
  | .Update, t => "update " ++ t ++ " completes with error"
  | .Delete, t => "delete from " ++ t ++ " completes with error"

/-- Two texts are the same when letter case is ignored: they agree after
`strings.ToUpper`. -/
def sameIgnoringCase (a b : String) : Prop := strings.ToUpper a = strings.ToUpper b

/-- A logger standing for `slog.Default()`: one sink, stream 7, enabled from
`Info` upwards as the default handler of the standard library is. -/
def exampleDefault : slog.Logger :=
  slog.New (slog.newStreamHandler 7 slog.LevelInfo (fun _ _ => none))

/-- Surroundings for the slog examples: stderr is stream 2, every file opens as
stream 3, no write fails. -/
def exampleEnv : slog_logger.Env :=
  { OpenFile := fun _ => .ok 3, stderr := 2, writeErr := fun _ _ => none,
    Default := exampleDefault }

/-- Surroundings for the zap examples: the documented `zapcore.ParseLevel`,
stderr is stream 2, every file opens as stream 3. -/
def exampleZapEnv : zap_logger.Env :=
  { ParseLevel := zapcore.ParseLevel, OpenFile := fun _ => .ok 3, stderr := 2 }

mutual
/-- A handler as the constructors of the package build them: every
`multiHandler` in it wraps at least two handlers (`NewMultiHandler` returns nil
or the single handler otherwise). -/
def slog.Handler.wellFormed : slog.Handler → Bool
  | .sink _ => true
  | .caller c => slog_logger.callerHandler.wellFormed c
  | .multi m => slog_logger.multiHandler.wellFormed m
/-- See `slog.Handler.wellFormed`. -/
def slog_logger.callerHandler.wellFormed : slog_logger.callerHandler → Bool
  | .mk handler _ => slog.Handler.wellFormed handler
/-- See `slog.Handler.wellFormed`. -/
def slog_logger.multiHandler.wellFormed : slog_logger.multiHandler → Bool
  | .mk handlers =>
    decide (2 ≤ handlers.length) && slog_logger.multiHandler.wellFormed.loop handlers
/-- See `slog.Handler.wellFormed`. -/
def slog_logger.multiHandler.wellFormed.loop : List slog.Handler → Bool
  | [] => true
  | handler :: rest =>
    slog.Handler.wellFormed handler && slog_logger.multiHandler.wellFormed.loop rest
end

/-- The delivery `ev` as a sink makes it after `fs` were bound to it as well. -/
def Event.rebind (fs : List slog.Attr) (ev : Event) : Event :=
  { ev with attrs := ev.attrs ++ fs }

/-- The write `ev` as a core makes it after `fs` were bound to it as well. -/
def ZapEvent.rebind (fs : List zap.Field) (ev : ZapEvent) : ZapEvent :=
  { ev with bound := ev.bound ++ fs }

/-- A handle as `GetLogger` mints it from a factory with level `info` and a log
file: the chain fans out to the console sink (stream 2) and the file sink
(stream 3), each behind a `callerHandler`. -/
def exampleLogger : slog_logger.Logger :=
  { slogLog := slog_logger.newSlogLogger.build
      [slog_logger.NewCallerHandler
         (slog.newStreamHandler 2 slog.LevelInfo (fun _ _ => none)) 4,
       slog_logger.NewCallerHandler
         (slog.newStreamHandler 3 slog.LevelInfo (fun _ _ => none)) 4]
      exampleDefault,
    functionName := "main", ctx := 0 }

/-- A zap handle over one core writing to stream 2 from level `info`. -/
def exampleZapLogger : zap_logger.ZapLogger :=
  { zapLog := { core := .io { out := 2, level := zapcore.InfoLevel }, addCaller := true,
                callerSkip := 1 },
    functionName := "main" }

/-- A stream on which no send fails. -/
def exampleStream : petname_server.Stream := { Send := fun _ _ => none }

/-- A stream whose third send fails with `Unavailable` (code 14). -/
def exampleBrokenStream : petname_server.Stream :=
  { Send := fun k _ => if k = 2 then some ⟨14, "transport is closing"⟩ else none }

/-- A name generator for the examples: the round number and the word count. -/
def exampleGenerator : petname_server.Generator :=
  fun k words _ => "pet" ++ toString k ++ "x" ++ toString words

/-- The call stack of the examples: `Create` calls `GetLogger`, `HandleCreate`
called `Create`. -/
def exampleStack : List runtime.Frame :=
  [⟨"example.com/shop/orders.(*Service).Create"⟩, ⟨"example.com/shop/api.HandleCreate"⟩,
   ⟨"net/http.HandlerFunc.ServeHTTP"⟩]

/-- A world with nothing delivered yet, in which `runtime.Caller` fails. -/
def World.start : World := { now := 0, pc := 0, caller := fun _ => none, trace := [] }

/-- A zap world with nothing written yet. -/
def ZapWorld.start : ZapWorld := { now := 0, trace := [] }

/-! # Theorems -/

/-! ## The fan-out dispatcher -/

section FanOut

open slog_logger

theorem multiHandler_Enabled_loop_iff (hs : List slog.Handler) (ctx : Context) (level : slog.Level) :
    multiHandler.Enabled.loop hs ctx level = true ↔ ∃ h ∈ hs, h.Enabled ctx level = true := by
  induction hs with
  | nil => simp [multiHandler.Enabled.loop]
  | cons h rest ih =>
    by_cases hh : h.Enabled ctx level = true
    · simp [multiHandler.Enabled.loop, hh]
    · simp [multiHandler.Enabled.loop, hh, ih]

theorem multiHandler_Handle_loop_sinks (ctx : Context) (r : slog.Record) (ss : List Sink) :
    ∀ (firstErr : Option Go.Error) (w : World),
      (multiHandler.Handle.loop (ss.map slog.Handler.sink) ctx r firstErr w).1.trace
          = w.trace ++ deliveries (ss.filter (fun s => s.enabled ctx r.Level)) r
        ∧ (multiHandler.Handle.loop (ss.map slog.Handler.sink) ctx r firstErr w).2
          = (match firstErr with
             | some e => some e
             | none => (ss.filter (fun s => s.enabled ctx r.Level)).findSome?
                 (fun s => s.result ctx r)) := by
  induction ss with
  | nil =>
    intro firstErr w
    cases firstErr <;> simp [multiHandler.Handle.loop, deliveries]
  | cons s rest ih =>
    intro firstErr w
    by_cases hs : s.enabled ctx r.Level = true
    · cases hres : s.result ctx r with
      | none =>
        have := ih firstErr (w.deliver s.id s.attrs r)
        cases firstErr <;>
          simpa [multiHandler.Handle.loop, slog.Handler.Enabled, slog.Handler.Handle, hs, hres,
            deliveries, World.deliver, List.filter_cons] using this
      | some e =>
        cases firstErr with
        | none =>
          have := ih (some e) (w.deliver s.id s.attrs r)
          simpa [multiHandler.Handle.loop, slog.Handler.Enabled, slog.Handler.Handle, hs, hres,
            deliveries, World.deliver, List.filter_cons] using this
        | some e0 =>
          have := ih (some e0) (w.deliver s.id s.attrs r)
          simpa [multiHandler.Handle.loop, slog.Handler.Enabled, slog.Handler.Handle, hs, hres,
            deliveries, World.deliver, List.filter_cons] using this
    · have := ih firstErr w
      cases firstErr <;>
        simpa [multiHandler.Handle.loop, slog.Handler.Enabled, slog.Handler.Handle, hs,
          deliveries, List.filter_cons] using this

/-- C1: the fan-out dispatcher reports a level enabled exactly when at least one
of the handlers it wraps reports it enabled, for every list of wrapped
handlers, every context and every level. -/
theorem multiHandler_Enabled_iff_exists (hs : List slog.Handler) (ctx : Context)
    (level : slog.Level) :
    (multiHandler.mk hs).Enabled ctx level = true ↔ ∃ h ∈ hs, h.Enabled ctx level = true := by
  simp [multiHandler.Enabled, multiHandler_Enabled_loop_iff]

/-- C2: when sink `i` of the wrapped list is enabled exactly from its minimum
level `M i` upwards, handing a record of level `L` to the fan-out dispatcher
delivers that same record once to each sink with `M i ≤ L`, in list order, and
to no sink with `L < M i`. -/
theorem multiHandler_Handle_reaches_iff_level (sm : List (Sink × slog.Level)) (ctx : Context)
    (r : slog.Record) (w : World)
    (hmin : ∀ p ∈ sm, ∀ (c : Context) (L : slog.Level), p.1.enabled c L = true ↔ p.2 ≤ L) :
    ((multiHandler.mk (sm.map (fun p => slog.Handler.sink p.1))).Handle ctx r w).1.trace
      = w.trace ++ deliveries ((sm.filter (fun p => decide (p.2 ≤ r.Level))).map Prod.fst) r := by
  have key := (multiHandler_Handle_loop_sinks ctx r (sm.map Prod.fst) none w).1
  have hfilter : (sm.map Prod.fst).filter (fun s => s.enabled ctx r.Level)
      = (sm.filter (fun p => decide (p.2 ≤ r.Level))).map Prod.fst := by
    rw [List.filter_map]
    congr 1
    apply List.filter_congr
    intro p hp
    have := hmin p hp ctx r.Level
    by_cases hle : p.2 ≤ r.Level
    · simp [hle, this.mpr hle]
    · have hne : p.1.enabled ctx r.Level ≠ true := fun h => hle (this.mp h)
      simp [hle, hne]
  rw [hfilter] at key
  simpa [multiHandler.Handle, List.map_map, Function.comp_def] using key

/-- C3: the fan-out dispatcher does not stop at a failing sink. Every wrapped
sink enabled for the record's level receives the record, in list order, whatever
the earlier sinks returned, and the error returned is that of the first enabled
sink that failed, nil when none failed. -/
theorem multiHandler_Handle_attempts_all (ss : List Sink) (ctx : Context) (r : slog.Record)
    (w : World) :
    ((multiHandler.mk (ss.map slog.Handler.sink)).Handle ctx r w).1.trace
        = w.trace ++ deliveries (ss.filter (fun s => s.enabled ctx r.Level)) r
      ∧ ((multiHandler.mk (ss.map slog.Handler.sink)).Handle ctx r w).2
        = (ss.filter (fun s => s.enabled ctx r.Level)).findSome? (fun s => s.result ctx r) := by
  simpa [multiHandler.Handle] using multiHandler_Handle_loop_sinks ctx r ss none w

/-- Witness for C2: three sinks with minimum levels Debug, Warn and Error and a
record at level Info; only the first sink receives it. -/
theorem multiHandler_Handle_reaches_iff_level_witness :
    ((multiHandler.mk
        ([(slog.streamSink 1 slog.LevelDebug (fun _ _ => none), slog.LevelDebug),
          (slog.streamSink 2 slog.LevelWarn (fun _ _ => none), slog.LevelWarn),
          (slog.streamSink 3 slog.LevelError (fun _ _ => none), slog.LevelError)].map
            (fun p => slog.Handler.sink p.1))).Handle 0
        { Time := 5, Level := slog.LevelInfo, Message := "m", PC := 0, Attrs := [] }
        World.start).1.trace
      = [⟨1, [], { Time := 5, Level := slog.LevelInfo, Message := "m", PC := 0, Attrs := [] }⟩] :=
  multiHandler_Handle_reaches_iff_level
    [(slog.streamSink 1 slog.LevelDebug (fun _ _ => none), slog.LevelDebug),
     (slog.streamSink 2 slog.LevelWarn (fun _ _ => none), slog.LevelWarn),
     (slog.streamSink 3 slog.LevelError (fun _ _ => none), slog.LevelError)] 0
    { Time := 5, Level := slog.LevelInfo, Message := "m", PC := 0, Attrs := [] } World.start
    (by
      intro p hp c L
      simp only [List.mem_cons, List.mem_singleton, List.not_mem_nil, or_false] at hp
      rcases hp with rfl | rfl | rfl <;> simp [slog.streamSink])

end FanOut

/-! ## What handling a record does to the world -/

section Frame

open slog_logger

mutual
theorem Handler_Handle_adds : ∀ (h : slog.Handler) (ctx : Context) (r : slog.Record) (w : World),
    ∃ added : List Event, (h.Handle ctx r w).1 = { w with trace := w.trace ++ added }
      ∧ ∀ ev ∈ added, ev.record.Message = r.Message ∧ ev.record.Level = r.Level
  | .sink s, ctx, r, w => by
    refine ⟨[⟨s.id, s.attrs, r⟩], ?_, ?_⟩
    · simp [slog.Handler.Handle, World.deliver]
    · simp
  | .caller c, ctx, r, w => by
    simpa [slog.Handler.Handle] using callerHandler_Handle_adds c ctx r w
  | .multi m, ctx, r, w => by
    simpa [slog.Handler.Handle] using multiHandler_Handle_adds m ctx r w
theorem callerHandler_Handle_adds :
    ∀ (c : callerHandler) (ctx : Context) (r : slog.Record) (w : World),
    ∃ added : List Event, (c.Handle ctx r w).1 = { w with trace := w.trace ++ added }
      ∧ ∀ ev ∈ added, ev.record.Message = r.Message ∧ ev.record.Level = r.Level
  | .mk handler skip, ctx, r, w => by
    cases hc : w.caller skip with
    | none => simpa [callerHandler.Handle, hc] using Handler_Handle_adds handler ctx r w
    | some ci =>
      have := Handler_Handle_adds handler ctx
        { Time := r.Time, Level := r.Level, Message := r.Message, PC := ci.pc,
          Attrs := slog.attrString "file" ci.file :: slog.attrInt "line" ci.line :: r.Attrs } w
      simpa [callerHandler.Handle, hc] using this
theorem multiHandler_Handle_adds :
    ∀ (m : multiHandler) (ctx : Context) (r : slog.Record) (w : World),
    ∃ added : List Event, (m.Handle ctx r w).1 = { w with trace := w.trace ++ added }
      ∧ ∀ ev ∈ added, ev.record.Message = r.Message ∧ ev.record.Level = r.Level
  | .mk handlers, ctx, r, w => by
    simpa [multiHandler.Handle] using multiHandler_Handle_loop_adds handlers ctx r none w
theorem multiHandler_Handle_loop_adds :
    ∀ (hs : List slog.Handler) (ctx : Context) (r : slog.Record) (firstErr : Option Go.Error)
      (w : World),
    ∃ added : List Event,
      (multiHandler.Handle.loop hs ctx r firstErr w).1 = { w with trace := w.trace ++ added }
      ∧ ∀ ev ∈ added, ev.record.Message = r.Message ∧ ev.record.Level = r.Level
  | [], ctx, r, firstErr, w => by
    exact ⟨[], by simp [multiHandler.Handle.loop], by simp⟩
  | h :: rest, ctx, r, firstErr, w => by
    by_cases hen : h.Enabled ctx r.Level = true
    · obtain ⟨a1, h1, p1⟩ := Handler_Handle_adds h ctx r w
      have step : ∀ fe : Option Go.Error, ∃ added : List Event,
          (multiHandler.Handle.loop rest ctx r fe (h.Handle ctx r w).1).1
            = { w with trace := w.trace ++ added }
          ∧ ∀ ev ∈ added, ev.record.Message = r.Message ∧ ev.record.Level = r.Level := by
        intro fe
        obtain ⟨a2, h2, p2⟩ := multiHandler_Handle_loop_adds rest ctx r fe (h.Handle ctx r w).1
        refine ⟨a1 ++ a2, ?_, ?_⟩
        · rw [h2, h1]; simp
        · intro ev hev
          rcases List.mem_append.mp hev with hm | hm
          · exact p1 ev hm
          · exact p2 ev hm
      rw [multiHandler.Handle.loop]
      simp only [hen, if_true]
      split
      · exact step _
      · exact step _
    · rw [multiHandler.Handle.loop]
      simp only [hen]
      exact multiHandler_Handle_loop_adds rest ctx r firstErr w
end

theorem offer_adds (h : slog.Handler) (ctx : Context) (r : slog.Record) (w : World) :
    ∃ added : List Event, offer h ctx r w = { w with trace := w.trace ++ added }
      ∧ ∀ ev ∈ added, ev.record.Message = r.Message ∧ ev.record.Level = r.Level := by
  unfold offer
  split
  · exact Handler_Handle_adds h ctx r w
  · exact ⟨[], by simp, by simp⟩

theorem offer_now (h : slog.Handler) (ctx : Context) (r : slog.Record) (w : World) :
    (offer h ctx r w).now = w.now := by
  obtain ⟨a, ha, -⟩ := offer_adds h ctx r w
  rw [ha]

theorem offer_pc (h : slog.Handler) (ctx : Context) (r : slog.Record) (w : World) :
    (offer h ctx r w).pc = w.pc := by
  obtain ⟨a, ha, -⟩ := offer_adds h ctx r w
  rw [ha]

theorem CheckedEntry_Write_now (cores : List zapcore.ioCore) (ent : zapcore.Entry)
    (fields : List zap.Field) (w : ZapWorld) :
    (zapcore.CheckedEntry.Write cores ent fields w).now = w.now := by
  unfold zapcore.CheckedEntry.Write
  induction cores generalizing w with
  | nil => rfl
  | cons c rest ih => simp [List.foldl_cons, ih]

theorem zapOffer_now (core : zapcore.Core) (ent : zapcore.Entry) (fields : List zap.Field)
    (w : ZapWorld) : (zapOffer core ent fields w).now = w.now := by
  unfold zapOffer
  split
  · exact CheckedEntry_Write_now _ _ _ _
  · rfl

end Frame

/-! ## Zero sinks -/

section ZeroSinks

open slog_logger

/-- C4, as stated, fails: `NewMultiHandler` with no sink returns nil, so there is
no dispatcher whose `Enabled` is false at every level, and the logger
`newSlogLogger` builds on that nil result is the default logger, which here
delivers an Info record to its own sink. -/
theorem NewMultiHandler_zero_is_not_a_disabled_dispatcher :
    (NewMultiHandler []).isNone = true
      ∧ (¬ ∃ d : slog.Handler, NewMultiHandler [] = some d ∧
          ∀ (ctx : Context) (level : slog.Level), d.Enabled ctx level = false)
      ∧ ((newSlogLogger.build [] exampleDefault).InfoContext 0 "hello" [] World.start).trace
          = [⟨7, [], { Time := 0, Level := slog.LevelInfo, Message := "hello", PC := 0,
                       Attrs := [] }⟩] := by
  refine ⟨rfl, ?_, rfl⟩
  rintro ⟨d, hd, -⟩
  simp [NewMultiHandler] at hd

/-- C4, amended: wrapping zero sinks yields nil, not a dispatcher, and the logger
`newSlogLogger` builds on that result is the default logger it is given, so
every logging call on it does exactly what it does on the default logger. -/
theorem NewMultiHandler_zero_falls_back_to_default (dflt : slog.Logger) :
    NewMultiHandler [] = none
      ∧ newSlogLogger.build [] dflt = dflt
      ∧ ∀ (ctx : Context) (level : slog.Level) (msg : String) (args : List slog.Attr) (w : World),
          (newSlogLogger.build [] dflt).log ctx level msg args w = dflt.log ctx level msg args w := by
  refine ⟨rfl, rfl, ?_⟩
  intro ctx level msg args w
  rfl

end ZeroSinks

/-! ## The scope finalizer -/

section Finalizer

theorem zap_logAt_eq_zapOffer (log : zap.Logger) (lvl : zapcore.Level) (msg : String)
    (fields : List zap.Field) (w : ZapWorld) (hlvl : lvl < zapcore.DPanicLevel) :
    log.logAt lvl msg fields w
      = zapOffer log.core { Level := lvl, Time := w.now, Message := msg } fields w := by
  unfold zap.Logger.logAt zapOffer
  by_cases hen : log.core.Enabled lvl = true
  · simp [hen]
  · simp [hen, hlvl]

theorem slog_log_eq_offer (l : slog.Logger) (ctx : Context) (level : slog.Level) (msg : String)
    (args : List slog.Attr) (w : World) :
    l.log ctx level msg args w
      = offer l.handler ctx
          { Time := w.now, Level := level, Message := msg, PC := w.pc, Attrs := args } w := by
  unfold slog.Logger.log offer slog.Logger.Enabled
  by_cases hen : l.handler.Enabled ctx level = true
  · simp [hen]
  · simp [hen]

/-- C5, as stated, fails: a factory configured with level `error` builds a chain
that does not admit Info, and `End` called on a handle of that factory with no
panic in flight delivers no record at all. -/
theorem End_emits_nothing_below_threshold :
    ∃ f : slog_logger.LoggerFactory,
      slog_logger.NewLoggerFactory exampleEnv
          { ServiceName := "svc", Version := "1", LogLevel := "error", OutputPath := "" } = .ok f
        ∧ (slog_logger.Logger.End { slogLog := f.slogLog, functionName := "main", ctx := 0 }
            none World.start).1.trace = []
        ∧ (slog_logger.Logger.End { slogLog := f.slogLog, functionName := "main", ctx := 0 }
            none World.start).2 = none :=
  ⟨_, rfl, rfl, rfl⟩

/-- C5, amended: each record of `End` is emitted only if the chain admits its
level. With no panic in flight `End` offers the chain the one Info record whose
message is the function-name-prefixed "end" and returns normally. While a panic
with value `v` propagates it offers the chain one Error record "the panic was
catched" carrying `v` as its `error` field, then the one Info "end" record, and
panics again with the same `v`. An offered record is handed over exactly once
when the chain admits its level and not at all otherwise. Both backends. -/
theorem End_offers_records_and_repanics (l : slog_logger.Logger) (z : zap_logger.ZapLogger)
    (w : World) (zw : ZapWorld) (v : Go.Any) :
    l.End none w
        = (offer l.slogLog.handler l.ctx
            { Time := w.now, Level := slog.LevelInfo,
              Message := slog_logger.createMessageWithFuncName l.functionName "end",
              PC := w.pc, Attrs := [] } w, none)
      ∧ l.End (some v) w
        = (offer l.slogLog.handler l.ctx
            { Time := w.now, Level := slog.LevelInfo,
              Message := slog_logger.createMessageWithFuncName l.functionName "end",
              PC := w.pc, Attrs := [] }
            (offer l.slogLog.handler l.ctx
              { Time := w.now, Level := slog.LevelError, Message := "the panic was catched",
                PC := w.pc,
                Attrs := [slog.attrAny "error" v, slog.attrString "function" l.functionName] }
              w), some v)
      ∧ z.End none zw
        = (zapOffer z.zapLog.core
            { Level := zapcore.InfoLevel, Time := zw.now,
              Message := zap_logger.createMessageWithFuncName z.functionName "end" } [] zw, none)
      ∧ z.End (some v) zw
        = (zapOffer z.zapLog.core
            { Level := zapcore.InfoLevel, Time := zw.now,
              Message := zap_logger.createMessageWithFuncName z.functionName "end" } []
            (zapOffer z.zapLog.core
              { Level := zapcore.ErrorLevel, Time := zw.now, Message := "the panic was catched" }
              [zap.fieldAny "error" v, zap.fieldStack "stacktrace"] zw), some v) := by
  refine ⟨?_, ?_, ?_, ?_⟩
  · simp [slog_logger.Logger.End, slog.Logger.InfoContext, slog_log_eq_offer, lg.MsgEnd]
  · simp [slog_logger.Logger.End, slog.Logger.InfoContext, slog.Logger.ErrorContext,
      slog_log_eq_offer, lg.MsgEnd, lg.MsgPanicWasCatched, offer_now, offer_pc]
  · simp [zap_logger.ZapLogger.End, zap.Logger.Info, lg.MsgEnd,
      zap_logAt_eq_zapOffer _ zapcore.InfoLevel _ _ _ (by decide)]
  · simp [zap_logger.ZapLogger.End, zap.Logger.Info, zap.Logger.Error, lg.MsgEnd,
      lg.MsgPanicWasCatched, zapOffer_now,
      zap_logAt_eq_zapOffer _ zapcore.InfoLevel _ _ _ (by decide),
      zap_logAt_eq_zapOffer _ zapcore.ErrorLevel _ _ _ (by decide)]

end Finalizer

/-! ## Messages and the captured function name -/

section Messages

open slog_logger

theorem attrsToArgs_eq (attrs : List slog.Attr) : attrsToArgs attrs = attrs := by
  have key : ∀ (xs acc : List slog.Attr),
      xs.foldl (fun args attr => args ++ [attr]) acc = acc ++ xs := by
    intro xs
    induction xs with
    | nil => intro acc; simp
    | cons x rest ih => intro acc; simp [List.foldl_cons, ih]
  unfold attrsToArgs
  cases attrs with
  | nil => simp
  | cons a rest => simp [key]

theorem createMessageWithFuncName_beginsWith (fn msg : String) :
    beginsWith (nameTag fn) (createMessageWithFuncName fn msg) := by
  unfold beginsWith nameTag createMessageWithFuncName funcNameSeparator
  by_cases hfn : fn = ""
  · simp [hfn]
  · simp only [hfn, if_false, String.data_append]
    exact List.prefix_append _ _

theorem extendsBy_refl (P : slog.Record → Prop) (w : World) : World.extendsBy P w w :=
  ⟨[], by simp, by simp⟩

theorem extendsBy_trans {P : slog.Record → Prop} {w w1 w2 : World}
    (h1 : World.extendsBy P w w1) (h2 : World.extendsBy P w1 w2) : World.extendsBy P w w2 := by
  obtain ⟨a1, e1, p1⟩ := h1
  obtain ⟨a2, e2, p2⟩ := h2
  refine ⟨a1 ++ a2, by rw [e2, e1, List.append_assoc], ?_⟩
  intro ev hev
  rcases List.mem_append.mp hev with hm | hm
  · exact p1 ev hm
  · exact p2 ev hm

theorem extendsBy_mono {P Q : slog.Record → Prop} {w w1 : World} (hPQ : ∀ r, P r → Q r)
    (h : World.extendsBy P w w1) : World.extendsBy Q w w1 := by
  obtain ⟨a, e, p⟩ := h
  exact ⟨a, e, fun ev hev => hPQ _ (p ev hev)⟩

theorem slog_log_extendsBy (l : slog.Logger) (ctx : Context) (level : slog.Level) (msg : String)
    (args : List slog.Attr) (w : World) :
    World.extendsBy (fun r => r.Message = msg ∧ r.Level = level) w (l.log ctx level msg args w) := by
  rw [slog_log_eq_offer]
  obtain ⟨a, e, p⟩ := offer_adds l.handler ctx
    { Time := w.now, Level := level, Message := msg, PC := w.pc, Attrs := args } w
  exact ⟨a, by rw [e], p⟩

theorem slog_log_tagged (l : slog.Logger) (ctx : Context) (level : slog.Level) (fn msg : String)
    (args : List slog.Attr) (w : World) :
    World.extendsBy (fun r => beginsWith (nameTag fn) r.Message) w
      (l.log ctx level (createMessageWithFuncName fn msg) args w) := by
  refine extendsBy_mono ?_ (slog_log_extendsBy l ctx level _ args w)
  intro r hr
  rw [hr.1]
  exact createMessageWithFuncName_beginsWith fn msg

/-- C6, as stated, fails: on a handle of a factory configured with level `info`,
whose captured name is `main`, `End` catching a panic delivers two records,
and the message of the first, "the panic was catched", does not begin with
`main: `. -/
theorem End_panic_record_is_not_tagged :
    ∃ f : LoggerFactory,
      NewLoggerFactory exampleEnv
          { ServiceName := "svc", Version := "1", LogLevel := "info", OutputPath := "" } = .ok f
        ∧ ((Logger.End { slogLog := f.slogLog, functionName := "main", ctx := 0 }
            (some (.str "boom")) World.start).1.trace.map (fun ev => ev.record.Message))
            = ["the panic was catched", "main: end"]
        ∧ ¬ beginsWith ("main" ++ ": ") "the panic was catched" :=
  ⟨_, rfl, rfl, by decide⟩

/-- C6, amended: every record a handle delivers through `Debug`, `Info`,
`Warning`, `Error`, `ErrorIn`, `ErrorSQL` and as the "end" record of `End` has a
message that begins with the captured function name followed by `: ` when that
name is not empty (with the empty name the message is passed on as it is); the
record `End` emits on catching a panic is the exception: its message is the
fixed text "the panic was catched", without the name. -/
theorem Logger_messages_begin_with_function_name (l : Logger) (w : World) :
    (∀ msg attrs, World.extendsBy (fun r => beginsWith (nameTag l.functionName) r.Message) w
        (l.Debug msg attrs w))
      ∧ (∀ msg attrs, World.extendsBy (fun r => beginsWith (nameTag l.functionName) r.Message) w
        (l.Info msg attrs w))
      ∧ (∀ msg attrs, World.extendsBy (fun r => beginsWith (nameTag l.functionName) r.Message) w
        (l.Warning msg attrs w))
      ∧ (∀ msg attrs, World.extendsBy (fun r => beginsWith (nameTag l.functionName) r.Message) w
        (l.Error msg attrs w))
      ∧ (∀ funcName err attrs,
          World.extendsBy (fun r => beginsWith (nameTag l.functionName) r.Message) w
            (l.ErrorIn funcName err attrs w))
      ∧ (∀ operation table err attrs,
          World.extendsBy (fun r => beginsWith (nameTag l.functionName) r.Message) w
            (l.ErrorSQL operation table err attrs w))
      ∧ World.extendsBy (fun r => beginsWith (nameTag l.functionName) r.Message) w (l.End none w).1
      ∧ (∀ v, World.extendsBy
          (fun r => beginsWith (nameTag l.functionName) r.Message
            ∨ r.Message = "the panic was catched") w (l.End (some v) w).1) := by
  refine ⟨?_, ?_, ?_, ?_, ?_, ?_, ?_, ?_⟩
  · intro msg attrs
    unfold Logger.Debug slog.Logger.DebugContext
    split
    · exact slog_log_tagged _ _ _ _ _ _ _
    · exact extendsBy_refl _ _
  · intro msg attrs
    unfold Logger.Info slog.Logger.InfoContext
    split
    · exact slog_log_tagged _ _ _ _ _ _ _
    · exact extendsBy_refl _ _
  · intro msg attrs
    unfold Logger.Warning slog.Logger.WarnContext
    split
    · exact slog_log_tagged _ _ _ _ _ _ _
    · exact extendsBy_refl _ _
  · intro msg attrs
    unfold Logger.Error slog.Logger.ErrorContext
    split
    · exact slog_log_tagged _ _ _ _ _ _ _
    · exact extendsBy_refl _ _
  · intro funcName err attrs
    exact slog_log_tagged _ _ _ _ _ _ _
  · intro operation table err attrs
    exact slog_log_tagged _ _ _ _ _ _ _
  · exact slog_log_tagged _ _ _ _ _ _ _
  · intro v
    have first : World.extendsBy
        (fun r => beginsWith (nameTag l.functionName) r.Message
          ∨ r.Message = "the panic was catched") w
        (l.slogLog.log l.ctx slog.LevelError lg.MsgPanicWasCatched
          [slog.attrAny "error" v, slog.attrString "function" l.functionName] w) :=
      extendsBy_mono (fun r hr => Or.inr hr.1) (slog_log_extendsBy _ _ _ _ _ _)
    exact extendsBy_trans first
      (extendsBy_mono (fun r hr => Or.inl hr) (slog_log_tagged _ _ _ _ _ _ _))

end Messages

/-! ## SQL error helpers -/

section SQLErrors

theorem ZapLogger_ErrorSQL_offers (z : zap_logger.ZapLogger) (operation : zap_logger.SQLErrorType)
    (table : String) (err : Go.Error) (fields : List zap.Field) (w : ZapWorld) :
    ∃ msg : String, z.ErrorSQL operation table err fields w
      = zapOffer z.zapLog.core { Level := zapcore.ErrorLevel, Time := w.now, Message := msg }
          (fields ++ [zap.fieldError err]) w := by
  unfold zap_logger.ZapLogger.ErrorSQL zap.Logger.Error
  exact ⟨_, zap_logAt_eq_zapOffer _ zapcore.ErrorLevel _ _ _ (by decide)⟩

/-- C7, failing input: on a handle of a zap factory configured with level
`debug`, `ErrorSQL(SQLInsert, "users", err)` with no extra fields writes one Error
entry whose only field is the error; the table name appears in the message
alone, not among the fields. -/
theorem ZapLogger_ErrorSQL_fields_lack_table :
    ∃ f : zap_logger.ZapLoggerFactory,
      zap_logger.NewZapLoggerFactory exampleZapEnv
          { ServiceName := "svc", Version := "1", LogLevel := "debug", OutputPath := "" } = .ok f
        ∧ (zap_logger.ZapLogger.ErrorSQL { zapLog := f.zapLog, functionName := "main" }
            zap_logger.SQLInsert "users" ⟨"boom"⟩ [] ZapWorld.start).trace
          = [{ out := 2, bound := [],
               entry := { Level := zapcore.ErrorLevel, Time := 0,
                          Message := "main: insert into users completes with error" },
               fields := [{ Key := "error", Value := .error ⟨"boom"⟩ }] }] :=
  ⟨_, rfl, by decide⟩

theorem Sprintf_sql_templates (t : String) :
    (fmt.Sprintf lg.MsgSQLSelectWithError t = spec.sqlPhrase .Select t)
      ∧ (fmt.Sprintf lg.MsgSQLInsertWithError t = spec.sqlPhrase .Insert t)
      ∧ (fmt.Sprintf lg.MsgSQLUpdateWithError t = spec.sqlPhrase .Update t)
      ∧ (fmt.Sprintf lg.MsgSQLDeleteWithError t = spec.sqlPhrase .Delete t) := by
  cases t
  exact ⟨rfl, rfl, rfl, rfl⟩

theorem createMessageWithFuncName_contains (fn msg : String) :
    msg.data <:+: (slog_logger.createMessageWithFuncName fn msg).data := by
  unfold slog_logger.createMessageWithFuncName slog_logger.funcNameSeparator
  by_cases hfn : fn = ""
  · simp [hfn]
  · simp only [hfn, if_false, String.data_append]
    exact (List.suffix_append _ _).isInfix

theorem parseLogLevel_le_error (s : String) : slog_logger.parseLogLevel s ≤ slog.LevelError := by
  unfold slog_logger.parseLogLevel
  simp only
  split
  · decide
  · split
    · decide
    · split
      · decide
      · split <;> decide

theorem newSlogLogger_admits_error (env : slog_logger.Env) (cfg : slog_logger.Config)
    (lg0 : slog.Logger) (file : Option Nat)
    (hnew : slog_logger.newSlogLogger env cfg = .ok (lg0, file)) (ctx : Context) :
    lg0.Enabled ctx slog.LevelError = true := by
  have hle := parseLogLevel_le_error cfg.LogLevel
  unfold slog_logger.newSlogLogger at hnew
  simp only at hnew
  split at hnew
  · split at hnew
    · exact absurd hnew (by simp)
    · simp only [Except.ok.injEq, Prod.mk.injEq] at hnew
      rw [← hnew.1]
      simp [slog_logger.newSlogLogger.build, slog_logger.NewMultiHandler, slog.New,
        slog.Logger.Enabled, slog.Handler.Enabled, slog_logger.multiHandler.Enabled,
        slog_logger.multiHandler.Enabled.loop, slog_logger.NewCallerHandler,
        slog_logger.callerHandler.Enabled, slog.newStreamHandler, slog.streamSink, hle]
  · simp only [Except.ok.injEq, Prod.mk.injEq] at hnew
    rw [← hnew.1]
    simp [slog_logger.newSlogLogger.build, slog_logger.NewMultiHandler, slog.New,
      slog.Logger.Enabled, slog.Handler.Enabled, slog_logger.NewCallerHandler,
      slog_logger.callerHandler.Enabled, slog.newStreamHandler, slog.streamSink, hle]

/-- C8: on a handle whose chain admits the Error level (every chain
`newSlogLogger` builds does), the slog-backed `ErrorSQL` hands the chain exactly
one record: level Error, message the per-kind phrase with the table name
(behind the function-name tag), fields the caller's fields followed by
`error` = the error's description and `table` = the table name; and each of
`ErrorSQLSelect`, `ErrorSQLInsert`, `ErrorSQLUpdate`, `ErrorSQLDelete` does what
`ErrorSQL` does with the matching kind. -/
theorem Logger_ErrorSQL_record (l : slog_logger.Logger) (k : spec.SQLKind) (t : String)
    (e : Go.Error) (fs : List slog.Attr) (w : World)
    (hErrorOn : l.slogLog.Enabled l.ctx slog.LevelError = true) :
    l.ErrorSQL k.code t e fs w
        = (l.slogLog.handler.Handle l.ctx
            { Time := w.now, Level := slog.LevelError,
              Message := slog_logger.createMessageWithFuncName l.functionName (spec.sqlPhrase k t),
              PC := w.pc,
              Attrs := fs ++ [slog.attrString "error" e.msg, slog.attrString "table" t] } w).1
      ∧ (spec.sqlPhrase k t).data
          <:+: (slog_logger.createMessageWithFuncName l.functionName (spec.sqlPhrase k t)).data
      ∧ l.ErrorSQLSelect t e fs w = l.ErrorSQL spec.SQLKind.Select.code t e fs w
      ∧ l.ErrorSQLInsert t e fs w = l.ErrorSQL spec.SQLKind.Insert.code t e fs w
      ∧ l.ErrorSQLUpdate t e fs w = l.ErrorSQL spec.SQLKind.Update.code t e fs w
      ∧ l.ErrorSQLDelete t e fs w = l.ErrorSQL spec.SQLKind.Delete.code t e fs w := by
  refine ⟨?_, createMessageWithFuncName_contains _ _, rfl, rfl, rfl, rfl⟩
  obtain ⟨h1, h2, h3, h4⟩ := Sprintf_sql_templates t
  have hmsg : (if k.code = slog_logger.SQLSelect then fmt.Sprintf lg.MsgSQLSelectWithError t
      else if k.code = slog_logger.SQLInsert then fmt.Sprintf lg.MsgSQLInsertWithError t
      else if k.code = slog_logger.SQLUpdate then fmt.Sprintf lg.MsgSQLUpdateWithError t
      else if k.code = slog_logger.SQLDelete then fmt.Sprintf lg.MsgSQLDeleteWithError t
      else fmt.Sprintf "SQL operation error on table %s" t) = spec.sqlPhrase k t := by
    cases k <;>
      simp [spec.SQLKind.code, slog_logger.SQLSelect, slog_logger.SQLInsert,
        slog_logger.SQLUpdate, slog_logger.SQLDelete, h1, h2, h3, h4]
  unfold slog_logger.Logger.ErrorSQL slog.Logger.ErrorContext
  simp only [hmsg, attrsToArgs_eq, slog_log_eq_offer]
  unfold offer
  rw [if_pos (by simpa [slog.Logger.Enabled] using hErrorOn)]

/-- Witness for C8: a handle on the chain of a factory with level `warn` and a
log file; the Insert record goes to both sinks. -/
theorem Logger_ErrorSQL_record_witness :
    ∃ f : slog_logger.LoggerFactory,
      slog_logger.NewLoggerFactory exampleEnv
          { ServiceName := "svc", Version := "1", LogLevel := "warn", OutputPath := "x.log" }
          = .ok f
        ∧ (slog_logger.Logger.ErrorSQL { slogLog := f.slogLog, functionName := "main", ctx := 0 }
            slog_logger.SQLInsert "users" ⟨"boom"⟩ [slog.attrInt "n" 1] World.start).trace
          = [⟨2, [], { Time := 0, Level := slog.LevelError,
                       Message := "main: insert into users completes with error", PC := 0,
                       Attrs := [slog.attrInt "n" 1, slog.attrString "error" "boom",
                                 slog.attrString "table" "users"] }⟩,
             ⟨3, [], { Time := 0, Level := slog.LevelError,
                       Message := "main: insert into users completes with error", PC := 0,
                       Attrs := [slog.attrInt "n" 1, slog.attrString "error" "boom",
                                 slog.attrString "table" "users"] }⟩] := by
  refine ⟨_, rfl, ?_⟩
  have h := (Logger_ErrorSQL_record
    { slogLog := (slog_logger.newSlogLogger.build
        [slog_logger.NewCallerHandler
           (slog.newStreamHandler 2 (slog_logger.parseLogLevel "warn") (fun _ _ => none)) 4,
         slog_logger.NewCallerHandler
           (slog.newStreamHandler 3 (slog_logger.parseLogLevel "warn") (fun _ _ => none)) 4]
        exampleDefault),
      functionName := "main", ctx := 0 }
    spec.SQLKind.Insert "users" ⟨"boom"⟩ [slog.attrInt "n" 1] World.start (by decide)).1
  exact (congrArg World.trace h).trans (by decide)

end SQLErrors

/-! ## Level parsing -/

section Levels

/-- C9, failing input: level string `verbose`, empty output path. `verbose` is
no level name for `zapcore.ParseLevel`; `parseZapLogLevel` returns the Debug
level next to the parse error, yet `NewZapLoggerFactory` returns that error and
no factory instead of a factory at the Debug threshold. The slog factory, given
the same level string, does not fail and uses Debug. -/
theorem NewZapLoggerFactory_rejects_unknown_level :
    (zapcore.ParseLevel "verbose").2.isSome = true
      ∧ zap_logger.parseZapLogLevel exampleZapEnv "verbose"
          = (zapcore.DebugLevel,
             some ⟨"unrecognized level: " ++ quoteMark ++ "verbose" ++ quoteMark⟩)
      ∧ zap_logger.NewZapLoggerFactory exampleZapEnv
          { ServiceName := "svc", Version := "1", LogLevel := "verbose", OutputPath := "" }
        = .error ⟨"unrecognized level: " ++ quoteMark ++ "verbose" ++ quoteMark⟩
      ∧ slog_logger.parseLogLevel "verbose" = slog.LevelDebug
      ∧ ∃ f : slog_logger.LoggerFactory,
          slog_logger.NewLoggerFactory exampleEnv
            { ServiceName := "svc", Version := "1", LogLevel := "verbose", OutputPath := "" }
            = .ok f :=
  ⟨by decide, by decide, rfl, by decide, _, rfl⟩

/-- What the zap factory does with a level string that is not empty and that
`zapcore.ParseLevel` rejects: whatever the output path is, it returns the parse
error and no factory. -/
theorem NewZapLoggerFactory_fails_on_unrecognised_level (env : zap_logger.Env)
    (cfg : zap_logger.Config) (e : Go.Error) (hne : cfg.LogLevel ≠ "")
    (hbad : (env.ParseLevel cfg.LogLevel).2 = some e) :
    zap_logger.NewZapLoggerFactory env cfg = .error e := by
  have hparse : zap_logger.parseZapLogLevel env cfg.LogLevel = (zapcore.DebugLevel, some e) := by
    unfold zap_logger.parseZapLogLevel
    rw [if_neg hne]
    rcases hp : env.ParseLevel cfg.LogLevel with ⟨lvl, err⟩
    rw [hp] at hbad
    simp only at hbad
    subst hbad
    rfl
  unfold zap_logger.NewZapLoggerFactory zap_logger.newZapLogger
  rw [hparse]

/-- An instance of the lemma before: level `trace` with a log file that opens. -/
theorem NewZapLoggerFactory_fails_on_unrecognised_level_witness :
    zap_logger.NewZapLoggerFactory exampleZapEnv
        { ServiceName := "svc", Version := "1", LogLevel := "trace", OutputPath := "app.log" }
      = .error ⟨"unrecognized level: " ++ quoteMark ++ "trace" ++ quoteMark⟩ :=
  NewZapLoggerFactory_fails_on_unrecognised_level exampleZapEnv
    { ServiceName := "svc", Version := "1", LogLevel := "trace", OutputPath := "app.log" }
    ⟨"unrecognized level: " ++ quoteMark ++ "trace" ++ quoteMark⟩ (by decide) (by decide)

theorem NewZapLoggerFactory_empty_level_is_debug (env : zap_logger.Env)
    (cfg : zap_logger.Config) (hlevel : cfg.LogLevel = "") (hpath : cfg.OutputPath = "") :
    ∃ f : zap_logger.ZapLoggerFactory, zap_logger.NewZapLoggerFactory env cfg = .ok f
      ∧ f.zapLog.core = .io { out := env.stderr, level := zapcore.DebugLevel } := by
  refine ⟨{ zapLog := { core := .io { out := env.stderr, level := zapcore.DebugLevel },
                        addCaller := true, callerSkip := 1 }, config := cfg }, ?_, rfl⟩
  simp [zap_logger.NewZapLoggerFactory, zap_logger.newZapLogger, zap_logger.parseZapLogLevel,
    hlevel, hpath, zapcore.NewTee]

/-- C10: `parseLogLevel` returns a level for every string. A string that is
`debug`, `info`, `warn`, `warning` or `error` up to letter case gives Debug,
Info, Warning, Warning or Error; every other string, the empty one included,
gives Debug. -/
theorem parseLogLevel_by_name (s : String) :
    (sameIgnoringCase s "debug" → slog_logger.parseLogLevel s = slog.LevelDebug)
      ∧ (sameIgnoringCase s "info" → slog_logger.parseLogLevel s = slog.LevelInfo)
      ∧ (sameIgnoringCase s "warn" → slog_logger.parseLogLevel s = slog.LevelWarn)
      ∧ (sameIgnoringCase s "warning" → slog_logger.parseLogLevel s = slog.LevelWarn)
      ∧ (sameIgnoringCase s "error" → slog_logger.parseLogLevel s = slog.LevelError)
      ∧ (¬ sameIgnoringCase s "debug" → ¬ sameIgnoringCase s "info" →
          ¬ sameIgnoringCase s "warn" → ¬ sameIgnoringCase s "warning" →
          ¬ sameIgnoringCase s "error" → slog_logger.parseLogLevel s = slog.LevelDebug)
      ∧ slog_logger.parseLogLevel "" = slog.LevelDebug
      ∧ slog_logger.parseLogLevel "WaRnInG" = slog.LevelWarn
      ∧ slog_logger.parseLogLevel "verbose" = slog.LevelDebug := by
  have hd : strings.ToUpper "debug" = "DEBUG" := by decide
  have hi : strings.ToUpper "info" = "INFO" := by decide
  have hw : strings.ToUpper "warn" = "WARN" := by decide
  have hwg : strings.ToUpper "warning" = "WARNING" := by decide
  have he : strings.ToUpper "error" = "ERROR" := by decide
  unfold sameIgnoringCase
  rw [hd, hi, hw, hwg, he]
  refine ⟨?_, ?_, ?_, ?_, ?_, ?_, by decide, by decide, by decide⟩
  · intro h
    simp [slog_logger.parseLogLevel, h]
  · intro h
    simp [slog_logger.parseLogLevel, h]
  · intro h
    simp [slog_logger.parseLogLevel, h]
  · intro h
    simp [slog_logger.parseLogLevel, h]
  · intro h
    simp [slog_logger.parseLogLevel, h]
  · intro h1 h2 h3 h4 h5
    simp [slog_logger.parseLogLevel, h1, h2, h3, h4, h5]

end Levels

/-! ## Handles with pre-bound fields -/

section Derived

open slog_logger

theorem NewMultiHandler_of_two_le (hs : List slog.Handler) (hlen : 2 ≤ hs.length) :
    NewMultiHandler hs = some (.multi (.mk hs)) := by
  unfold NewMultiHandler
  rw [if_neg (by omega), if_neg (by omega)]

mutual
theorem Handler_WithAttrs_commutes (fs : List slog.Attr) (hfs : fs.length ≠ 0) :
    ∀ (h : slog.Handler), h.wellFormed = true →
    ∃ h1 : slog.Handler, h.WithAttrs fs = some h1 ∧ h1.wellFormed = true
      ∧ (∀ ctx lvl, h1.Enabled ctx lvl = h.Enabled ctx lvl)
      ∧ (∀ ctx r (w w1 : World), w1.caller = w.caller →
          ∃ (added : List Event) (e : Option Go.Error),
            h.Handle ctx r w = ({ w with trace := w.trace ++ added }, e)
            ∧ h1.Handle ctx r w1
                = ({ w1 with trace := w1.trace ++ added.map (Event.rebind fs) }, e))
  | .sink s, _ => by
    refine ⟨.sink { s with attrs := s.attrs ++ fs }, rfl, rfl, ?_, ?_⟩
    · intro ctx lvl
      simp [slog.Handler.Enabled]
    · intro ctx r w w1 _
      exact ⟨[⟨s.id, s.attrs, r⟩], s.result ctx r, by simp [slog.Handler.Handle, World.deliver],
        by simp [slog.Handler.Handle, World.deliver, Event.rebind]⟩
  | .caller c, hwf => by
    obtain ⟨h1, e1, w1, en1, hd1⟩ := callerHandler_WithAttrs_commutes fs hfs c
      (by simpa [slog.Handler.wellFormed] using hwf)
    exact ⟨h1, by simpa [slog.Handler.WithAttrs] using e1, w1,
      by simpa [slog.Handler.Enabled] using en1, by simpa [slog.Handler.Handle] using hd1⟩
  | .multi m, hwf => by
    obtain ⟨h1, e1, w1, en1, hd1⟩ := multiHandler_WithAttrs_commutes fs hfs m
      (by simpa [slog.Handler.wellFormed] using hwf)
    exact ⟨h1, by simpa [slog.Handler.WithAttrs] using e1, w1,
      by simpa [slog.Handler.Enabled] using en1, by simpa [slog.Handler.Handle] using hd1⟩
theorem callerHandler_WithAttrs_commutes (fs : List slog.Attr) (hfs : fs.length ≠ 0) :
    ∀ (c : callerHandler), c.wellFormed = true →
    ∃ h1 : slog.Handler, c.WithAttrs fs = some h1 ∧ h1.wellFormed = true
      ∧ (∀ ctx lvl, h1.Enabled ctx lvl = c.Enabled ctx lvl)
      ∧ (∀ ctx r (w w1 : World), w1.caller = w.caller →
          ∃ (added : List Event) (e : Option Go.Error),
            c.Handle ctx r w = ({ w with trace := w.trace ++ added }, e)
            ∧ h1.Handle ctx r w1
                = ({ w1 with trace := w1.trace ++ added.map (Event.rebind fs) }, e))
  | .mk handler skip, hwf => by
    obtain ⟨h1, e1, w1, en1, hd1⟩ := Handler_WithAttrs_commutes fs hfs handler
      (by simpa [callerHandler.wellFormed] using hwf)
    refine ⟨.caller (.mk h1 skip), ?_, ?_, ?_, ?_⟩
    · simp [callerHandler.WithAttrs, hfs, e1]
    · simpa [slog.Handler.wellFormed, callerHandler.wellFormed] using w1
    · intro ctx lvl
      simpa [slog.Handler.Enabled, callerHandler.Enabled] using en1 ctx lvl
    · intro ctx r w w2 hc
      cases hcall : w.caller skip with
      | none =>
        have := hd1 ctx r w w2 hc
        simpa [slog.Handler.Handle, callerHandler.Handle, hcall, hc] using this
      | some ci =>
        have := hd1 ctx
          { Time := r.Time, Level := r.Level, Message := r.Message, PC := ci.pc,
            Attrs := slog.attrString "file" ci.file :: slog.attrInt "line" ci.line :: r.Attrs }
          w w2 hc
        simpa [slog.Handler.Handle, callerHandler.Handle, hcall, hc] using this
theorem multiHandler_WithAttrs_commutes (fs : List slog.Attr) (hfs : fs.length ≠ 0) :
    ∀ (m : multiHandler), m.wellFormed = true →
    ∃ h1 : slog.Handler, m.WithAttrs fs = some h1 ∧ h1.wellFormed = true
      ∧ (∀ ctx lvl, h1.Enabled ctx lvl = m.Enabled ctx lvl)
      ∧ (∀ ctx r (w w1 : World), w1.caller = w.caller →
          ∃ (added : List Event) (e : Option Go.Error),
            m.Handle ctx r w = ({ w with trace := w.trace ++ added }, e)
            ∧ h1.Handle ctx r w1
                = ({ w1 with trace := w1.trace ++ added.map (Event.rebind fs) }, e))
  | .mk handlers, hwf => by
    have hwf2 : 2 ≤ handlers.length ∧ multiHandler.wellFormed.loop handlers = true := by
      simpa [multiHandler.wellFormed] using hwf
    obtain ⟨hs1, e1, len1, w1, en1, hd1⟩ :=
      multiHandler_WithAttrs_loop_commutes fs hfs handlers hwf2.2
    refine ⟨.multi (.mk hs1), ?_, ?_, ?_, ?_⟩
    · simp [multiHandler.WithAttrs, hfs, e1, NewMultiHandler_of_two_le hs1 (by omega)]
    · simp [slog.Handler.wellFormed, multiHandler.wellFormed, w1]
      omega
    · intro ctx lvl
      simpa [slog.Handler.Enabled, multiHandler.Enabled] using en1 ctx lvl
    · intro ctx r w w2 hc
      simpa [slog.Handler.Handle, multiHandler.Handle] using hd1 ctx r none w w2 hc
theorem multiHandler_WithAttrs_loop_commutes (fs : List slog.Attr) (hfs : fs.length ≠ 0) :
    ∀ (hs : List slog.Handler), multiHandler.wellFormed.loop hs = true →
    ∃ hs1 : List slog.Handler, multiHandler.WithAttrs.loop hs fs = some hs1
      ∧ hs1.length = hs.length ∧ multiHandler.wellFormed.loop hs1 = true
      ∧ (∀ ctx lvl, multiHandler.Enabled.loop hs1 ctx lvl = multiHandler.Enabled.loop hs ctx lvl)
      ∧ (∀ ctx r (firstErr : Option Go.Error) (w w1 : World), w1.caller = w.caller →
          ∃ (added : List Event) (e : Option Go.Error),
            multiHandler.Handle.loop hs ctx r firstErr w
                = ({ w with trace := w.trace ++ added }, e)
            ∧ multiHandler.Handle.loop hs1 ctx r firstErr w1
                = ({ w1 with trace := w1.trace ++ added.map (Event.rebind fs) }, e))
  | [], _ => by
    refine ⟨[], rfl, rfl, rfl, fun _ _ => rfl, ?_⟩
    intro ctx r firstErr w w1 _
    exact ⟨[], firstErr, by simp [multiHandler.Handle.loop], by simp [multiHandler.Handle.loop]⟩
  | h :: rest, hwf => by
    have hwf2 : h.wellFormed = true ∧ multiHandler.wellFormed.loop rest = true := by
      simpa [multiHandler.wellFormed.loop] using hwf
    obtain ⟨h1, e1, w1, en1, hd1⟩ := Handler_WithAttrs_commutes fs hfs h hwf2.1
    obtain ⟨rest1, e2, len2, w2, en2, hd2⟩ :=
      multiHandler_WithAttrs_loop_commutes fs hfs rest hwf2.2
    refine ⟨h1 :: rest1, ?_, ?_, ?_, ?_, ?_⟩
    · simp [multiHandler.WithAttrs.loop, e1, e2]
    · simp [len2]
    · simp [multiHandler.wellFormed.loop, w1, w2]
    · intro ctx lvl
      simp [multiHandler.Enabled.loop, en1 ctx lvl, en2 ctx lvl]
    · intro ctx r firstErr w wa hc
      by_cases hen : h.Enabled ctx r.Level = true
      · obtain ⟨a1, er, hh, hh1⟩ := hd1 ctx r w wa hc
        have step : ∀ fe : Option Go.Error, ∃ (added : List Event) (e : Option Go.Error),
            multiHandler.Handle.loop rest ctx r fe { w with trace := w.trace ++ a1 }
                = ({ w with trace := w.trace ++ added }, e)
            ∧ multiHandler.Handle.loop rest1 ctx r fe
                  { wa with trace := wa.trace ++ a1.map (Event.rebind fs) }
                = ({ wa with trace := wa.trace ++ added.map (Event.rebind fs) }, e) := by
          intro fe
          obtain ⟨a2, e, hr, hr1⟩ := hd2 ctx r fe { w with trace := w.trace ++ a1 }
            { wa with trace := wa.trace ++ a1.map (Event.rebind fs) } hc
          exact ⟨a1 ++ a2, e, by rw [hr]; simp, by rw [hr1]; simp⟩
        rw [multiHandler.Handle.loop, multiHandler.Handle.loop]
        simp only [hen, en1 ctx r.Level, if_true, hh, hh1]
        split
        · exact step _
        · exact step _
      · rw [multiHandler.Handle.loop, multiHandler.Handle.loop]
        simp only [hen, en1 ctx r.Level]
        exact hd2 ctx r firstErr w wa hc
end

theorem CheckedEntry_Write_trace (cores : List zapcore.ioCore) (ent : zapcore.Entry)
    (fields : List zap.Field) (w : ZapWorld) :
    (zapcore.CheckedEntry.Write cores ent fields w).trace
      = w.trace ++ cores.map (fun c => ⟨c.out, c.fields, ent, fields⟩) := by
  unfold zapcore.CheckedEntry.Write
  induction cores generalizing w with
  | nil => simp
  | cons c rest ih => simp [List.foldl_cons, ih]

mutual
theorem Core_With_commutes (fs : List zap.Field) :
    ∀ (core : zapcore.Core),
      (∀ lvl, (core.With fs).Enabled lvl = core.Enabled lvl)
      ∧ (∀ ent (ce ce1 : List zapcore.ioCore), ∃ taken : List zapcore.ioCore,
          core.Check ent ce = ce ++ taken
          ∧ (core.With fs).Check ent ce1 = ce1 ++ taken.map (fun c => c.With fs))
  | .nop => by
    refine ⟨fun _ => rfl, ?_⟩
    intro ent ce ce1
    exact ⟨[], by simp [zapcore.Core.Check], by simp [zapcore.Core.With, zapcore.Core.Check]⟩
  | .io c => by
    refine ⟨fun _ => rfl, ?_⟩
    intro ent ce ce1
    by_cases hen : c.Enabled ent.Level = true
    · have hen1 : (c.With fs).Enabled ent.Level = true := hen
      exact ⟨[c], by simp [zapcore.Core.Check, hen],
        by simp [zapcore.Core.With, zapcore.Core.Check, hen1]⟩
    · have hen1 : ¬ (c.With fs).Enabled ent.Level = true := hen
      exact ⟨[], by simp [zapcore.Core.Check, hen],
        by simp [zapcore.Core.With, zapcore.Core.Check, hen1]⟩
  | .multi cores => by
    obtain ⟨en, ck⟩ := Core_With_loop_commutes fs cores
    refine ⟨?_, ?_⟩
    · intro lvl
      simpa [zapcore.Core.With, zapcore.Core.Enabled] using en lvl
    · intro ent ce ce1
      simpa [zapcore.Core.With, zapcore.Core.Check] using ck ent ce ce1
theorem Core_With_loop_commutes (fs : List zap.Field) :
    ∀ (cores : List zapcore.Core),
      (∀ lvl, zapcore.Core.Enabled.loop (zapcore.Core.With.loop cores fs) lvl
          = zapcore.Core.Enabled.loop cores lvl)
      ∧ (∀ ent (ce ce1 : List zapcore.ioCore), ∃ taken : List zapcore.ioCore,
          zapcore.Core.Check.loop cores ent ce = ce ++ taken
          ∧ zapcore.Core.Check.loop (zapcore.Core.With.loop cores fs) ent ce1
              = ce1 ++ taken.map (fun c => c.With fs))
  | [] => by
    refine ⟨fun _ => rfl, ?_⟩
    intro ent ce ce1
    exact ⟨[], by simp [zapcore.Core.Check.loop],
      by simp [zapcore.Core.With.loop, zapcore.Core.Check.loop]⟩
  | core :: rest => by
    obtain ⟨en1, ck1⟩ := Core_With_commutes fs core
    obtain ⟨en2, ck2⟩ := Core_With_loop_commutes fs rest
    refine ⟨?_, ?_⟩
    · intro lvl
      simp [zapcore.Core.With.loop, zapcore.Core.Enabled.loop, en1 lvl, en2 lvl]
    · intro ent ce ce1
      obtain ⟨t1, h1, h1w⟩ := ck1 ent ce ce1
      obtain ⟨t2, h2, h2w⟩ := ck2 ent (ce ++ t1) (ce1 ++ t1.map (fun c => c.With fs))
      refine ⟨t1 ++ t2, ?_, ?_⟩
      · rw [zapcore.Core.Check.loop, h1, h2, List.append_assoc]
      · rw [zapcore.Core.With.loop, zapcore.Core.Check.loop, h1w, h2w]
        simp
end

theorem zap_logAt_trace (log : zap.Logger) (lvl : zapcore.Level) (msg : String)
    (fields : List zap.Field) (w : ZapWorld) :
    (log.logAt lvl msg fields w).trace
      = w.trace ++
          (if (decide (lvl < zapcore.DPanicLevel) && !log.core.Enabled lvl) = true then []
           else (log.core.Check { Level := lvl, Time := w.now, Message := msg } []).map
             (fun c => ⟨c.out, c.fields, { Level := lvl, Time := w.now, Message := msg },
               fields⟩)) := by
  unfold zap.Logger.logAt
  by_cases hgate : (decide (lvl < zapcore.DPanicLevel) && !log.core.Enabled lvl) = true
  · rw [if_pos hgate, if_pos hgate]
    simp
  · rw [if_neg hgate, if_neg hgate]
    exact CheckedEntry_Write_trace _ _ _ _

theorem zap_logAt_With (log : zap.Logger) (fs : List zap.Field) (lvl : zapcore.Level)
    (msg : String) (fields : List zap.Field) (w : ZapWorld) :
    ∃ added : List ZapEvent, (log.logAt lvl msg fields w).trace = w.trace ++ added
      ∧ ((log.With fs).logAt lvl msg fields w).trace
          = w.trace ++ added.map (ZapEvent.rebind fs) := by
  refine ⟨_, zap_logAt_trace log lvl msg fields w, ?_⟩
  rw [zap_logAt_trace]
  by_cases hfs : fs.length = 0
  · have hnil : fs = [] := List.length_eq_zero.mp hfs
    subst hnil
    have hid : ∀ evs : List ZapEvent, evs.map (ZapEvent.rebind []) = evs := by
      intro evs
      induction evs with
      | nil => rfl
      | cons ev rest ih => simp [ZapEvent.rebind, ih]
    rw [hid]
    simp [zap.Logger.With]
  · obtain ⟨en, ck⟩ := Core_With_commutes fs log.core
    obtain ⟨taken, h1, h2⟩ := ck { Level := lvl, Time := w.now, Message := msg } [] []
    have hcore : (log.With fs).core = log.core.With fs := by
      simp [zap.Logger.With, hfs]
    rw [hcore, en lvl, h1, h2]
    by_cases hgate : (decide (lvl < zapcore.DPanicLevel) && !log.core.Enabled lvl) = true
    · rw [if_pos hgate, if_pos hgate]
      simp
    · rw [if_neg hgate, if_neg hgate]
      simp [ZapEvent.rebind, zapcore.ioCore.With, Function.comp_def]

theorem slog_log_With (l : slog.Logger) (fs : List slog.Attr)
    (hwf : l.handler.wellFormed = true) :
    ∃ l1 : slog.Logger, l.With fs = some l1 ∧ l1.handler.wellFormed = true
      ∧ ∀ ctx level msg args (w : World), ∃ added : List Event,
          (l.log ctx level msg args w).trace = w.trace ++ added
          ∧ (l1.log ctx level msg args w).trace = w.trace ++ added.map (Event.rebind fs) := by
  by_cases hfs : fs.length = 0
  · have hnil : fs = [] := List.length_eq_zero.mp hfs
    subst hnil
    have hid : ∀ evs : List Event, evs.map (Event.rebind []) = evs := by
      intro evs
      induction evs with
      | nil => rfl
      | cons ev rest ih => simp [Event.rebind, ih]
    refine ⟨l, by simp [slog.Logger.With], hwf, ?_⟩
    intro ctx level msg args w
    obtain ⟨a, ha, -⟩ := slog_log_extendsBy l ctx level msg args w
    exact ⟨a, ha, by rw [hid]; exact ha⟩
  · obtain ⟨h1, e1, w1, en1, hd1⟩ := Handler_WithAttrs_commutes fs hfs l.handler hwf
    refine ⟨⟨h1⟩, by simp [slog.Logger.With, hfs, e1], w1, ?_⟩
    intro ctx level msg args w
    by_cases hen : l.handler.Enabled ctx level = true
    · obtain ⟨a, e, ha, ha1⟩ := hd1 ctx
        { Time := w.now, Level := level, Message := msg, PC := w.pc, Attrs := args } w w rfl
      refine ⟨a, ?_, ?_⟩
      · simp [slog.Logger.log, slog.Logger.Enabled, hen, ha]
      · simp [slog.Logger.log, slog.Logger.Enabled, en1 ctx level, hen, ha1]
    · refine ⟨[], ?_, ?_⟩
      · simp [slog.Logger.log, slog.Logger.Enabled, hen]
      · simp [slog.Logger.log, slog.Logger.Enabled, en1 ctx level, hen]

theorem newSlogLogger_wellFormed (env : slog_logger.Env) (cfg : slog_logger.Config)
    (lg0 : slog.Logger) (file : Option Nat)
    (hnew : slog_logger.newSlogLogger env cfg = .ok (lg0, file)) :
    lg0.handler.wellFormed = true := by
  unfold slog_logger.newSlogLogger at hnew
  simp only at hnew
  split at hnew
  · split at hnew
    · exact absurd hnew (by simp)
    · simp only [Except.ok.injEq, Prod.mk.injEq] at hnew
      rw [← hnew.1]
      rfl
  · simp only [Except.ok.injEq, Prod.mk.injEq] at hnew
    rw [← hnew.1]
    rfl

/-- C11: `WithFields` only reads the handle it is called on. It returns a new
handle with the same captured function name and context; every delivery made
through the new handle is the delivery the original handle makes for the same
call with the fields `fs` bound in addition, while the original handle, used
after the derivation, makes its deliveries without them. Both backends; the
slog chain is one the package's constructors build. -/
theorem WithFields_leaves_original_untouched (l : Logger) (fs : List slog.Attr)
    (z : zap_logger.ZapLogger) (zfs : List zap.Field)
    (hwf : l.slogLog.handler.wellFormed = true) :
    (∃ l1 : Logger, l.WithFields fs = some l1
        ∧ l1.functionName = l.functionName ∧ l1.ctx = l.ctx
        ∧ l1.slogLog.handler.wellFormed = true
        ∧ ∀ ctx level msg args (w : World), ∃ added : List Event,
            (l.slogLog.log ctx level msg args w).trace = w.trace ++ added
            ∧ (l1.slogLog.log ctx level msg args w).trace
                = w.trace ++ added.map (Event.rebind fs))
      ∧ (z.WithFields zfs).functionName = z.functionName
      ∧ ∀ lvl msg fields (w : ZapWorld), ∃ added : List ZapEvent,
          (z.zapLog.logAt lvl msg fields w).trace = w.trace ++ added
          ∧ ((z.WithFields zfs).zapLog.logAt lvl msg fields w).trace
              = w.trace ++ added.map (ZapEvent.rebind zfs) := by
  refine ⟨?_, rfl, ?_⟩
  · obtain ⟨l1, e1, w1, hd⟩ := slog_log_With l.slogLog fs hwf
    refine ⟨{ slogLog := l1, functionName := l.functionName, ctx := l.ctx }, ?_, rfl, rfl, w1, hd⟩
    simp [Logger.WithFields, attrsToArgs_eq, e1]
  · intro lvl msg fields w
    exact zap_logAt_With z.zapLog zfs lvl msg fields w

/-- Witness for C11: on the example handle, deriving with `request_id` yields a
handle with the same name and context. -/
theorem WithFields_leaves_original_untouched_witness :
    exampleLogger.slogLog.handler.wellFormed = true
      ∧ ∃ l1 : Logger, exampleLogger.WithFields [slog.attrString "request_id" "abc"] = some l1
          ∧ l1.functionName = "main" ∧ l1.ctx = 0 :=
  ⟨by decide, by
    obtain ⟨l1, h1, h2, h3, -⟩ := (WithFields_leaves_original_untouched exampleLogger
      [slog.attrString "request_id" "abc"] exampleZapLogger [] (by decide)).1
    exact ⟨l1, h1, h2, h3⟩⟩

end Derived

/-! ## Minting a handle -/

section Minting

open slog_logger

theorem zap_GetLogger_functionName (f : zap_logger.ZapLoggerFactory) (caller : runtime.Frame)
    (rest : List runtime.Frame) (ctx : Context) (fields : List zap.Field) (w : ZapWorld) :
    (f.GetLogger (caller :: rest) ctx fields w).1.functionName
      = getFunctionName.shorten caller.function := by
  rfl

theorem slog_GetLogger_functionName (f : LoggerFactory) (caller up : runtime.Frame)
    (rest : List runtime.Frame) (ctx : Context) (attrs : List slog.Attr) (w : World) :
    (f.GetLogger (caller :: up :: rest) ctx attrs w).1.functionName
      = getFunctionName.shorten up.function := by
  unfold LoggerFactory.GetLogger
  simp only
  split <;> rfl

theorem slog_GetLogger_functionName_shallow (f : LoggerFactory) (caller : runtime.Frame)
    (ctx : Context) (attrs : List slog.Attr) (w : World) :
    (f.GetLogger [caller] ctx attrs w).1.functionName = unknownFunctionName := by
  unfold LoggerFactory.GetLogger
  simp only
  split <;> rfl

/-- C12, failing input: `Create` calls `GetLogger` and was itself called by
`HandleCreate`. The zap factory stores `Create`, the shortened name of the
immediate caller; the slog factory stores `HandleCreate`, the name of the
frame one further up. -/
theorem slog_GetLogger_names_the_callers_caller :
    ((LoggerFactory.GetLogger
        { slogLog := exampleLogger.slogLog,
          config := { ServiceName := "svc", Version := "1", LogLevel := "info",
                      OutputPath := "x.log" },
          file := some 3 }
        exampleStack 0 [] World.start).1.functionName = "HandleCreate")
      ∧ ((zap_logger.ZapLoggerFactory.GetLogger
        { zapLog := exampleZapLogger.zapLog,
          config := { ServiceName := "svc", Version := "1", LogLevel := "info",
                      OutputPath := "" } }
        exampleStack 0 [] ZapWorld.start).1.functionName = "Create")
      ∧ getFunctionName.shorten "example.com/shop/orders.(*Service).Create" = "Create" := by
  refine ⟨by decide, by decide, by decide⟩

theorem GetLogger_eq_offer (f : LoggerFactory) (stack : List runtime.Frame) (ctx : Context)
    (attrs : List slog.Attr) (w : World) :
    f.GetLogger stack ctx attrs w
      = ({ slogLog := f.slogLog,
           functionName := getFunctionName (frameGetLogger :: stack) 2 true, ctx := ctx },
         offer f.slogLog.handler ctx
           { Time := w.now, Level := slog.LevelInfo,
             Message := createMessageWithFuncName (getFunctionName (frameGetLogger :: stack) 2 true)
               (if attrs = [] then "start" else "start with params"),
             PC := w.pc, Attrs := attrs } w) := by
  unfold LoggerFactory.GetLogger
  cases attrs with
  | nil => simp [slog.Logger.InfoContext, slog_log_eq_offer, lg.MsgStart]
  | cons a rest =>
    simp [slog.Logger.InfoContext, slog_log_eq_offer, lg.MsgStartWithParams, attrsToArgs_eq]

/-- C13, as stated, fails: a factory configured with level `warn` builds a chain
that does not admit Info, and `GetLogger` on it delivers no start record. -/
theorem GetLogger_emits_nothing_below_threshold :
    ∃ f : LoggerFactory,
      NewLoggerFactory exampleEnv
          { ServiceName := "svc", Version := "1", LogLevel := "warn", OutputPath := "" } = .ok f
        ∧ (f.GetLogger exampleStack 0 [] World.start).2.trace = [] :=
  ⟨_, rfl, by decide⟩

/-- C13, amended: for every context and list of initial fields, `GetLogger`
offers the factory's chain exactly one record before returning: level Info,
message the captured function name, `: `, then `start` when no field is supplied
and `start with params` when at least one is (the bare text when the captured
name is empty), carrying exactly the supplied fields; the record is handed over
once when the chain admits Info and not at all otherwise. The handle returned
holds the factory's own chain, the captured name and the supplied context. -/
theorem GetLogger_offers_one_start_record (f : LoggerFactory) (stack : List runtime.Frame)
    (ctx : Context) (attrs : List slog.Attr) (w : World) :
    (f.GetLogger stack ctx attrs w).1.slogLog = f.slogLog
      ∧ (f.GetLogger stack ctx attrs w).1.functionName
          = getFunctionName (frameGetLogger :: stack) 2 true
      ∧ (f.GetLogger stack ctx attrs w).1.ctx = ctx
      ∧ (f.GetLogger stack ctx attrs w).2
          = offer f.slogLog.handler ctx
              { Time := w.now, Level := slog.LevelInfo,
                Message := nameTag (f.GetLogger stack ctx attrs w).1.functionName
                  ++ (if attrs = [] then "start" else "start with params"),
                PC := w.pc, Attrs := attrs } w := by
  rw [GetLogger_eq_offer]
  refine ⟨rfl, rfl, rfl, ?_⟩
  simp only
  congr 2
  unfold createMessageWithFuncName nameTag funcNameSeparator
  by_cases hn : getFunctionName (frameGetLogger :: stack) 2 true = ""
  · simp [hn]
  · simp [hn, String.append_assoc]

end Minting

/-! ## The gRPC services -/

section Services

open petname_server

theorem GenerateMany_loop_all_sent (gen : Generator) (stream : Stream)
    (req : PetnameStreamRequest) :
    ∀ (n k : Nat) (sent : List PetnameResponse),
      (∀ i, i < n → stream.Send (k + i) { Name := gen (k + i) req.Words req.Separator } = none) →
      GenerateMany.loop gen stream req n k sent
        = (sent ++ (List.range n).map
            (fun i => { Name := gen (k + i) req.Words req.Separator }), none) := by
  intro n
  induction n with
  | zero => intro k sent _; simp [GenerateMany.loop]
  | succ n ih =>
    intro k sent hok
    have h0 := hok 0 (Nat.succ_pos n)
    simp only [Nat.add_zero] at h0
    rw [GenerateMany.loop]
    simp only [h0]
    rw [ih (k + 1) _ (fun i hi => by
      have := hok (i + 1) (Nat.succ_lt_succ hi)
      simpa [Nat.add_assoc, Nat.add_comm 1 i] using this)]
    simp [List.range_succ_eq_map, List.map_map, Function.comp_def, Nat.add_assoc,
      Nat.add_comm 1]

theorem GenerateMany_loop_stops_at_failure (gen : Generator) (stream : Stream)
    (req : PetnameStreamRequest) (e : status.Error) :
    ∀ (n k j : Nat) (sent : List PetnameResponse), j < n →
      (∀ i, i < j → stream.Send (k + i) { Name := gen (k + i) req.Words req.Separator } = none) →
      stream.Send (k + j) { Name := gen (k + j) req.Words req.Separator } = some e →
      GenerateMany.loop gen stream req n k sent
        = (sent ++ (List.range (j + 1)).map
            (fun i => { Name := gen (k + i) req.Words req.Separator }), some e) := by
  intro n
  induction n with
  | zero => intro k j sent hj; omega
  | succ n ih =>
    intro k j sent hj hok hfail
    cases j with
    | zero =>
      simp only [Nat.add_zero] at hfail
      rw [GenerateMany.loop]
      simp [hfail, List.range_succ]
    | succ j =>
      have h0 := hok 0 (Nat.succ_pos j)
      simp only [Nat.add_zero] at h0
      rw [GenerateMany.loop]
      simp only [h0]
      rw [ih (k + 1) j _ (by omega)
        (fun i hi => by
          have := hok (i + 1) (Nat.succ_lt_succ hi)
          simpa [Nat.add_assoc, Nat.add_comm 1 i] using this)
        (by simpa [Nat.add_assoc, Nat.add_comm 1 j] using hfail)]
      rw [List.range_succ_eq_map (j + 1)]
      simp [List.map_map, Function.comp_def, Nat.add_assoc, Nat.add_comm 1]

/-- C14: with a stream whose sends do not fail, `Generate` returns an
InvalidArgument error, and no name, exactly when `Words ≤ 0`, and
`GenerateMany` returns an InvalidArgument error, with nothing handed to the
stream, exactly when `Words ≤ 0` or `Names ≤ 0`; otherwise both return without
error. -/
theorem Petname_rejects_exactly_non_positive_counts (gen : Generator) (req : PetnameRequest)
    (sreq : PetnameStreamRequest) (stream : Stream)
    (hsend : ∀ k resp, stream.Send k resp = none) :
    ((∃ msg, Generate gen req = .error ⟨codes.InvalidArgument, msg⟩) ↔ req.Words ≤ 0)
      ∧ (0 < req.Words → Generate gen req = .ok { Name := gen 0 req.Words req.Separator })
      ∧ ((∃ msg, GenerateMany gen sreq stream = ([], some ⟨codes.InvalidArgument, msg⟩))
          ↔ (sreq.Words ≤ 0 ∨ sreq.Names ≤ 0))
      ∧ (0 < sreq.Words → 0 < sreq.Names → (GenerateMany gen sreq stream).2 = none) := by
  have hmany : 0 < sreq.Words → 0 < sreq.Names → (GenerateMany gen sreq stream).2 = none := by
    intro hw hn
    unfold GenerateMany
    rw [if_neg (by omega), if_neg (by omega),
      GenerateMany_loop_all_sent gen stream sreq _ 0 [] (fun i _ => hsend _ _)]
  refine ⟨?_, ?_, ?_, hmany⟩
  · constructor
    · rintro ⟨msg, h⟩
      by_contra hpos
      simp [Generate, hpos] at h
    · intro hle
      exact ⟨_, by unfold Generate; rw [if_pos hle]⟩
  · intro hpos
    simp [Generate, Int.not_le.mpr hpos]
  · constructor
    · rintro ⟨msg, h⟩
      by_contra hpos
      have hw : 0 < sreq.Words := by omega
      have hn : 0 < sreq.Names := by omega
      have := hmany hw hn
      rw [h] at this
      simp at this
    · rintro (hle | hle)
      · exact ⟨_, by unfold GenerateMany; rw [if_pos hle]⟩
      · by_cases hw : sreq.Words ≤ 0
        · exact ⟨_, by unfold GenerateMany; rw [if_pos hw]⟩
        · exact ⟨_, by unfold GenerateMany; rw [if_neg hw, if_pos hle]⟩

/-- Witness for C14: zero words on the unary call and zero names on the
streaming call are rejected with InvalidArgument. -/
theorem Petname_rejects_exactly_non_positive_counts_witness :
    (∃ msg, Generate exampleGenerator { Words := 0, Separator := "_" }
        = .error ⟨codes.InvalidArgument, msg⟩)
      ∧ (∃ msg, GenerateMany exampleGenerator { Words := 4, Separator := "_", Names := 0 }
          exampleStream = ([], some ⟨codes.InvalidArgument, msg⟩)) :=
  ⟨(Petname_rejects_exactly_non_positive_counts exampleGenerator
      { Words := 0, Separator := "_" } { Words := 4, Separator := "_", Names := 0 }
      exampleStream (fun _ _ => rfl)).1.mpr (by decide),
   (Petname_rejects_exactly_non_positive_counts exampleGenerator
      { Words := 0, Separator := "_" } { Words := 4, Separator := "_", Names := 0 }
      exampleStream (fun _ _ => rfl)).2.2.1.mpr (Or.inr (by decide))⟩

/-- C16: for a request with `Words > 0` and `Names = n > 0`, when every send
succeeds the server hands exactly `n` responses to the stream, the `i`-th built
from the `i`-th generated name, and returns nil; when the `k`-th send is the
first to fail, it returns that send's error after exactly `k` calls of `Send`. -/
theorem GenerateMany_sends_n_or_stops (gen : Generator) (req : PetnameStreamRequest)
    (stream : Stream) (hw : 0 < req.Words) (hn : 0 < req.Names) :
    ((∀ i, i < req.Names.toNat →
          stream.Send i { Name := gen i req.Words req.Separator } = none) →
        GenerateMany gen req stream
          = ((List.range req.Names.toNat).map
              (fun i => { Name := gen i req.Words req.Separator }), none))
      ∧ (∀ (k : Nat) (e : status.Error), 1 ≤ k → k ≤ req.Names.toNat →
          (∀ i, i < k - 1 → stream.Send i { Name := gen i req.Words req.Separator } = none) →
          stream.Send (k - 1) { Name := gen (k - 1) req.Words req.Separator } = some e →
          GenerateMany gen req stream
            = ((List.range k).map (fun i => { Name := gen i req.Words req.Separator }),
               some e)) := by
  constructor
  · intro hok
    unfold GenerateMany
    rw [if_neg (by omega), if_neg (by omega),
      GenerateMany_loop_all_sent gen stream req _ 0 [] (fun i hi => by simpa using hok i hi)]
    simp
  · intro k e hk1 hkn hok hfail
    unfold GenerateMany
    rw [if_neg (by omega), if_neg (by omega),
      GenerateMany_loop_stops_at_failure gen stream req e _ 0 (k - 1) [] (by omega)
        (fun i hi => by simpa using hok i hi) (by simpa using hfail)]
    have hk : k - 1 + 1 = k := by omega
    simp [hk]

/-- Witness for C16: five names asked for; on the sound stream five responses are
sent, on the stream whose third send fails three are handed over and the
failure is returned. -/
theorem GenerateMany_sends_n_or_stops_witness :
    GenerateMany exampleGenerator { Words := 2, Separator := "_", Names := 5 } exampleStream
        = ((List.range 5).map (fun i => { Name := exampleGenerator i 2 "_" }), none)
      ∧ GenerateMany exampleGenerator { Words := 2, Separator := "_", Names := 5 }
          exampleBrokenStream
        = ((List.range 3).map (fun i => { Name := exampleGenerator i 2 "_" }),
           some ⟨14, "transport is closing"⟩) :=
  ⟨(GenerateMany_sends_n_or_stops exampleGenerator { Words := 2, Separator := "_", Names := 5 }
      exampleStream (by decide) (by decide)).1 (fun _ _ => rfl),
   (GenerateMany_sends_n_or_stops exampleGenerator { Words := 2, Separator := "_", Names := 5 }
      exampleBrokenStream (by decide) (by decide)).2 3 ⟨14, "transport is closing"⟩
      (by decide) (by decide)
      (fun i hi => by
        have hne : i ≠ 2 := by omega
        simp [exampleBrokenStream, hne])
      (by simp [exampleBrokenStream])⟩

/-- C15: `Norm` fails exactly when the phrase is longer than 4096 bytes, then
with ResourceExhausted and without calling the normalizer; a phrase of at most
4096 bytes, so one of exactly 4096, is answered with the normalizer's result
for that phrase, the normalizer being called once. -/
theorem Norm_limits_phrase_to_4096_bytes (norm : String → List String)
    (req : words_server.WordsRequest) :
    ((∃ msg, words_server.Norm norm req = (.error ⟨codes.ResourceExhausted, msg⟩, []))
        ↔ 4096 < req.Phrase.utf8ByteSize)
      ∧ ((∃ e calls, words_server.Norm norm req = (.error e, calls))
        ↔ 4096 < req.Phrase.utf8ByteSize)
      ∧ (req.Phrase.utf8ByteSize ≤ 4096 →
          words_server.Norm norm req = (.ok { Words := norm req.Phrase }, [req.Phrase])) := by
  have hmax : words_server.maxMessageSize = 4096 := by decide
  refine ⟨?_, ?_, ?_⟩
  · constructor
    · rintro ⟨msg, h⟩
      by_contra hle
      simp [words_server.Norm, hmax, hle] at h
    · intro hgt
      exact ⟨_, by unfold words_server.Norm; rw [if_pos (by rw [hmax]; exact hgt)]⟩
  · constructor
    · rintro ⟨e, calls, h⟩
      by_contra hle
      simp [words_server.Norm, hmax, hle] at h
    · intro hgt
      exact ⟨_, _, by unfold words_server.Norm; rw [if_pos (by rw [hmax]; exact hgt)]⟩
  · intro hle
    simp [words_server.Norm, hmax, Nat.not_lt.mpr hle]

theorem utf8ByteSize_replicate (n : Nat) :
    (String.mk (List.replicate n '1')).utf8ByteSize = n := by
  induction n with
  | zero => rfl
  | succ n ih =>
    have h1 : (String.mk (List.replicate (n + 1) '1')).utf8ByteSize
        = (String.mk (List.replicate n '1')).utf8ByteSize + 1 := by
      simp [List.replicate_succ, String.utf8ByteSize, String.utf8ByteSize.go, Char.utf8Size]
    rw [h1, ih]

/-- Witness for C15: a phrase of 4096 one-byte characters is answered by the
normalizer, a phrase of 4097 is refused with ResourceExhausted. -/
theorem Norm_limits_phrase_to_4096_bytes_witness :
    words_server.Norm (fun p => [p]) { Phrase := String.mk (List.replicate 4096 '1') }
        = (.ok { Words := [String.mk (List.replicate 4096 '1')] },
           [String.mk (List.replicate 4096 '1')])
      ∧ ∃ msg, words_server.Norm (fun p => [p]) { Phrase := String.mk (List.replicate 4097 '1') }
          = (.error ⟨codes.ResourceExhausted, msg⟩, []) :=
  ⟨(Norm_limits_phrase_to_4096_bytes (fun p => [p])
      { Phrase := String.mk (List.replicate 4096 '1') }).2.2
      (by rw [utf8ByteSize_replicate]),
   (Norm_limits_phrase_to_4096_bytes (fun p => [p])
      { Phrase := String.mk (List.replicate 4097 '1') }).1.mpr
      (by rw [utf8ByteSize_replicate]; decide)⟩

end Services

/-! ## The caller-enriching decorator -/

section Decorator

open slog_logger

/-- C17: the caller-enriching decorator never fails or drops a record on
account of stack resolution. When `runtime.Caller` fails it hands the record on
unchanged; when it succeeds it hands on a record with the same time, level and
message whose fields are `file` and `line` followed by the original fields in
their order; either way the record is handed to the wrapped handler once and
`Handle` returns that handler's result; `Enabled` is the wrapped handler's
`Enabled` at every level. -/
theorem callerHandler_forwards_once (handler : slog.Handler) (skip : Int) (ctx : Context)
    (r : slog.Record) (w : World) :
    (∀ level, (callerHandler.mk handler skip).Enabled ctx level = handler.Enabled ctx level)
      ∧ (w.caller skip = none →
          (callerHandler.mk handler skip).Handle ctx r w = handler.Handle ctx r w)
      ∧ (∀ ci : CallerInfo, w.caller skip = some ci →
          (callerHandler.mk handler skip).Handle ctx r w
            = handler.Handle ctx
                { Time := r.Time, Level := r.Level, Message := r.Message, PC := ci.pc,
                  Attrs := slog.attrString "file" ci.file :: slog.attrInt "line" ci.line
                    :: r.Attrs } w) := by
  refine ⟨?_, ?_, ?_⟩
  · intro level
    simp [callerHandler.Enabled]
  · intro hnone
    simp [callerHandler.Handle, hnone]
  · intro ci hsome
    simp [callerHandler.Handle, hsome]

end Decorator

end GoToolkit
